import Mathlib

/-!
# PdhDll: the reference-counted binding to pdh.dll

A shallow embedding of `src/hotspot/os/windows/pdh_interface.cpp` (namespace `PdhDll`) and of
the thread mirror of `test/hotspot/jtreg/vmTestbase/nsk/share/native/native_thread.cpp`
(namespace `NativeThread`).

* The static members of `PdhDll` are the fields of `State`, with the names of the source.
  Pointers (`HMODULE`, the ten function pointers) are natural numbers, `nullptr` is `0`.
* `LONG` values are integers; `InterlockedExchangeAdd` reduces its sum to the 32-bit signed
  range (`wrapLONG`), as the Windows primitive does.
* The operating system is a `Service`: `load_Windows_dll`, `GetProcAddress`, `FreeLibrary` and
  the native code behind a resolved address (`call`), each a function of a world state `W`, so a
  service may answer differently from one call to the next.
* A `Machine` is the statics, the world, and a ghost `trace` of the service calls made so far.
* The two busy-wait loops of `PdhAttach` run on fuel; a run is single-threaded.
* Assertions are those of a debug build: a proxy whose `assert` fails ends with an error and
  makes no call.
* `PdhStatusFail` takes the two status constants as parameters; `windowsSDK` holds the values
  the Windows headers give them.
-/

namespace PdhDll

/-- Reduction of an integer to the 32-bit two's-complement range of a Windows `LONG`. -/
def wrapLONG (x : Int) : Int := (x + 2147483648) % 4294967296 - 2147483648

/-- One call made to the operating-system service. -/
inductive Event where
  | load_Windows_dll (name : String)
  | GetProcAddress (hModule : Nat) (procName : String)
  | FreeLibrary (hModule : Nat)
  | call (address : Nat) (args : List Nat)
deriving DecidableEq, Repr

/-- The collaborators of `PdhDll`: the library loader and the native code behind an address.
Each takes the world state and returns its answer with the next world state. -/
structure Service (W : Type) where
  load_Windows_dll : W → String → Nat × W
  GetProcAddress : W → Nat → String → Nat × W
  FreeLibrary : W → Nat → Int × W
  call : W → Nat → List Nat → Int × W

/-- The static data members of `PdhDll` (lines 42-56), all zero at program start. -/
structure State where
  _PdhAddCounter : Nat := 0
  _PdhOpenQuery : Nat := 0
  _PdhCloseQuery : Nat := 0
  _PdhCollectQueryData : Nat := 0
  _PdhGetFormattedCounterValue : Nat := 0
  _PdhEnumObjectItems : Nat := 0
  _PdhRemoveCounter : Nat := 0
  _PdhLookupPerfNameByIndex : Nat := 0
  _PdhMakeCounterPath : Nat := 0
  _PdhExpandWildCardPath : Nat := 0
  _critical_section : Int := 0
  _initialized : Int := 0
  _pdh_reference_count : Int := 0
  _hModule : Nat := 0
deriving DecidableEq, Repr

/-- The statics, the state of the outside world, and the service calls made so far. -/
structure Machine (W : Type) where
  statics : State
  world : W
  trace : List Event

/-- The machine at program start: zero statics, no call made yet. -/
def boot {W : Type} (w : W) : Machine W := { statics := {}, world := w, trace := [] }

/-- Windows `InterlockedExchangeAdd(&addend, value)`: the new content of `addend` and the
returned initial value. -/
def InterlockedExchangeAdd (addend value : Int) : Int × Int :=
  (wrapLONG (addend + value), addend)

/-- Windows `InterlockedExchange(&target, value)`: the new content and the returned old value. -/
def InterlockedExchange (target value : Int) : Int × Int := (value, target)

/-- Windows `InterlockedCompareExchange(&dest, exchange, comparand)`: the new content of `dest`
and the returned initial value. -/
def InterlockedCompareExchange (dest exchange comparand : Int) : Int × Int :=
  (if dest = comparand then exchange else dest, dest)

/-- One `::GetProcAddress(_hModule, name)` call: the address, the world and trace advanced. -/
def getProc {W : Type} (svc : Service W) (m : Machine W) (name : String) : Nat × Machine W :=
  ((svc.GetProcAddress m.world m.statics._hModule name).1,
   { m with world := (svc.GetProcAddress m.world m.statics._hModule name).2,
            trace := m.trace ++ [Event.GetProcAddress m.statics._hModule name] })

/-- The source's `PdhDll::initialize` (lines 58-75); the trailing underscore only avoids a
reserved word. -/
def initialize_ {W : Type} (svc : Service W) (m : Machine W) : Machine W :=
  let l := svc.load_Windows_dll m.world "pdh.dll"
  let m0 : Machine W :=
    { statics := { m.statics with _hModule := l.1 }, world := l.2,
      trace := m.trace ++ [Event.load_Windows_dll "pdh.dll"] }
  if m0.statics._hModule = 0 then m0
  else
    let r1 := getProc svc m0 "PdhAddCounterA"
    let m1 := { r1.2 with statics := { r1.2.statics with _PdhAddCounter := r1.1 } }
    let r2 := getProc svc m1 "PdhOpenQueryA"
    let m2 := { r2.2 with statics := { r2.2.statics with _PdhOpenQuery := r2.1 } }
    let r3 := getProc svc m2 "PdhCloseQuery"
    let m3 := { r3.2 with statics := { r3.2.statics with _PdhCloseQuery := r3.1 } }
    let r4 := getProc svc m3 "PdhCollectQueryData"
    let m4 := { r4.2 with statics := { r4.2.statics with _PdhCollectQueryData := r4.1 } }
    let r5 := getProc svc m4 "PdhGetFormattedCounterValue"
    let m5 := { r5.2 with statics := { r5.2.statics with _PdhGetFormattedCounterValue := r5.1 } }
    let r6 := getProc svc m5 "PdhEnumObjectItemsA"
    let m6 := { r6.2 with statics := { r6.2.statics with _PdhEnumObjectItems := r6.1 } }
    let r7 := getProc svc m6 "PdhRemoveCounter"
    let m7 := { r7.2 with statics := { r7.2.statics with _PdhRemoveCounter := r7.1 } }
    let r8 := getProc svc m7 "PdhLookupPerfNameByIndexA"
    let m8 := { r8.2 with statics := { r8.2.statics with _PdhLookupPerfNameByIndex := r8.1 } }
    let r9 := getProc svc m8 "PdhMakeCounterPathA"
    let m9 := { r9.2 with statics := { r9.2.statics with _PdhMakeCounterPath := r9.1 } }
    let r10 := getProc svc m9 "PdhExpandWildCardPathA"
    let m10 := { r10.2 with statics := { r10.2.statics with _PdhExpandWildCardPath := r10.1 } }
    { m10 with statics :=
        { m10.statics with _initialized := (InterlockedExchange m10.statics._initialized 1).1 } }

/-- The source's `PdhDll::PdhDetach` (lines 77-100). -/
def PdhDetach {W : Type} (svc : Service W) (m : Machine W) : Bool × Machine W :=
  let x := InterlockedExchangeAdd m.statics._pdh_reference_count (-1)
  let prev_ref_count := x.2
  let m1 : Machine W := { m with statics := { m.statics with _pdh_reference_count := x.1 } }
  if prev_ref_count = 1 then
    if m1.statics._initialized ≠ 0 ∧ m1.statics._hModule ≠ 0 then
      let f := svc.FreeLibrary m1.world m1.statics._hModule
      let ret := f.1
      let m2 : Machine W :=
        { m1 with world := f.2, trace := m1.trace ++ [Event.FreeLibrary m1.statics._hModule] }
      if ret ≠ 0 then
        (decide (ret ≠ 0),
         { m2 with statics :=
            { m2.statics with
              _hModule := 0
              _PdhAddCounter := 0
              _PdhOpenQuery := 0
              _PdhCloseQuery := 0
              _PdhCollectQueryData := 0
              _PdhGetFormattedCounterValue := 0
              _PdhEnumObjectItems := 0
              _PdhRemoveCounter := 0
              _PdhLookupPerfNameByIndex := 0
              _PdhMakeCounterPath := 0
              _PdhExpandWildCardPath := 0
              _initialized := (InterlockedExchange m2.statics._initialized 0).1 } })
      else (decide (ret ≠ 0), m2)
    else (false, m1)
  else (false, m1)

/-- The loop `while (InterlockedCompareExchange(&_critical_section, 1, 0) == 1);` of line 107:
the content of `_critical_section` when the loop ends, `none` when the fuel runs out. -/
def acquireLoop : Nat → Int → Option Int
  | 0, _ => none
  | fuel + 1, cs =>
    if (InterlockedCompareExchange cs 1 0).2 = 1 then
      acquireLoop fuel (InterlockedCompareExchange cs 1 0).1
    else some (InterlockedCompareExchange cs 1 0).1

/-- The loop `while (InterlockedCompareExchange(&_critical_section, 0, 1) == 0);` of line 111. -/
def releaseLoop : Nat → Int → Option Int
  | 0, _ => none
  | fuel + 1, cs =>
    if (InterlockedCompareExchange cs 0 1).2 = 0 then
      releaseLoop fuel (InterlockedCompareExchange cs 0 1).1
    else some (InterlockedCompareExchange cs 0 1).1

/-- The return expression of `PdhAttach` (lines 112-116): all ten entry points are non-null. -/
def allResolved (s : State) : Bool :=
  decide (s._PdhAddCounter ≠ 0) && decide (s._PdhOpenQuery ≠ 0)
    && decide (s._PdhCloseQuery ≠ 0) && decide (s._PdhCollectQueryData ≠ 0)
    && decide (s._PdhGetFormattedCounterValue ≠ 0) && decide (s._PdhEnumObjectItems ≠ 0)
    && decide (s._PdhRemoveCounter ≠ 0) && decide (s._PdhLookupPerfNameByIndex ≠ 0)
    && decide (s._PdhMakeCounterPath ≠ 0) && decide (s._PdhExpandWildCardPath ≠ 0)

/-- The source's `PdhDll::PdhAttach` (lines 102-117); `none` when a busy-wait loop does not end
within the fuel. -/
def PdhAttach {W : Type} (fuel : Nat) (svc : Service W) (m : Machine W) :
    Option (Bool × Machine W) :=
  let m1 : Machine W :=
    { m with statics :=
        { m.statics with
          _pdh_reference_count := (InterlockedExchangeAdd m.statics._pdh_reference_count 1).1 } }
  if m1.statics._initialized = 1 then some (true, m1)
  else
    match acquireLoop fuel m1.statics._critical_section with
    | none => none
    | some cs1 =>
      let m2 : Machine W := { m1 with statics := { m1.statics with _critical_section := cs1 } }
      let m3 : Machine W := if m2.statics._initialized = 0 then initialize_ svc m2 else m2
      match releaseLoop fuel m3.statics._critical_section with
      | none => none
      | some cs2 =>
        let m4 : Machine W := { m3 with statics := { m3.statics with _critical_section := cs2 } }
        some (allResolved m4.statics, m4)

/-- Modelled from the spec: HotSpot's `assert(condition, message)` (utilities/debug.hpp, not
among the sources), in a build with assertions on. A violated precondition "is a
programming-error assertion, not a recoverable error": the call stops with the message and
nothing after the assertion runs. -/
def assert (condition : Prop) [Decidable condition] (message : String) : Except String Unit :=
  if condition then Except.ok () else Except.error message

/-- The message of the assertion every proxy makes. -/
def assertMessage : String := "PdhAvailable() not yet called"

/-- A call through a stored function pointer: the native code at `address` runs on `args`. -/
def invoke {W : Type} (svc : Service W) (m : Machine W) (address : Nat) (args : List Nat) :
    Int × Machine W :=
  ((svc.call m.world address args).1,
   { m with world := (svc.call m.world address args).2,
            trace := m.trace ++ [Event.call address args] })

/-- The source's `PdhDll::PdhAddCounter` (lines 119-122), in a build with assertions on. -/
def PdhAddCounter {W : Type} (svc : Service W) (m : Machine W)
    (hQuery szFullCounterPath dwUserData phCounter : Nat) : Except String (Int × Machine W) :=
  do
    assert (m.statics._initialized ≠ 0 ∧ m.statics._PdhAddCounter ≠ 0) assertMessage
    return invoke svc m m.statics._PdhAddCounter
      [hQuery, szFullCounterPath, dwUserData, phCounter]

/-- The source's `PdhDll::PdhOpenQuery` (lines 124-127). -/
def PdhOpenQuery {W : Type} (svc : Service W) (m : Machine W)
    (szDataSource dwUserData phQuery : Nat) : Except String (Int × Machine W) :=
  do
    assert (m.statics._initialized ≠ 0 ∧ m.statics._PdhOpenQuery ≠ 0) assertMessage
    return invoke svc m m.statics._PdhOpenQuery [szDataSource, dwUserData, phQuery]

/-- The source's `PdhDll::PdhCloseQuery` (lines 129-132). -/
def PdhCloseQuery {W : Type} (svc : Service W) (m : Machine W) (hQuery : Nat) :
    Except String (Int × Machine W) :=
  do
    assert (m.statics._initialized ≠ 0 ∧ m.statics._PdhCloseQuery ≠ 0) assertMessage
    return invoke svc m m.statics._PdhCloseQuery [hQuery]

/-- The source's `PdhDll::PdhCollectQueryData` (lines 134-137). -/
def PdhCollectQueryData {W : Type} (svc : Service W) (m : Machine W) (hQuery : Nat) :
    Except String (Int × Machine W) :=
  do
    assert (m.statics._initialized ≠ 0 ∧ m.statics._PdhCollectQueryData ≠ 0) assertMessage
    return invoke svc m m.statics._PdhCollectQueryData [hQuery]

/-- The source's `PdhDll::PdhGetFormattedCounterValue` (lines 139-142). -/
def PdhGetFormattedCounterValue {W : Type} (svc : Service W) (m : Machine W)
    (hCounter dwFormat lpdwType pValue : Nat) : Except String (Int × Machine W) :=
  do
    assert (m.statics._initialized ≠ 0 ∧ m.statics._PdhGetFormattedCounterValue ≠ 0) assertMessage
    return invoke svc m m.statics._PdhGetFormattedCounterValue
      [hCounter, dwFormat, lpdwType, pValue]

/-- The source's `PdhDll::PdhEnumObjectItems` (lines 144-150). -/
def PdhEnumObjectItems {W : Type} (svc : Service W) (m : Machine W)
    (szDataSource szMachineName szObjectName mszCounterList pcchCounterListLength
      mszInstanceList pcchInstanceListLength dwDetailLevel dwFlags : Nat) :
    Except String (Int × Machine W) :=
  do
    assert (m.statics._initialized ≠ 0 ∧ m.statics._PdhEnumObjectItems ≠ 0) assertMessage
    return invoke svc m m.statics._PdhEnumObjectItems
      [szDataSource, szMachineName, szObjectName, mszCounterList, pcchCounterListLength,
       mszInstanceList, pcchInstanceListLength, dwDetailLevel, dwFlags]

/-- The source's `PdhDll::PdhRemoveCounter` (lines 152-155). -/
def PdhRemoveCounter {W : Type} (svc : Service W) (m : Machine W) (hCounter : Nat) :
    Except String (Int × Machine W) :=
  do
    assert (m.statics._initialized ≠ 0 ∧ m.statics._PdhRemoveCounter ≠ 0) assertMessage
    return invoke svc m m.statics._PdhRemoveCounter [hCounter]

/-- The source's `PdhDll::PdhLookupPerfNameByIndex` (lines 157-160). -/
def PdhLookupPerfNameByIndex {W : Type} (svc : Service W) (m : Machine W)
    (szMachineName dwNameIndex szNameBuffer pcchNameBufferSize : Nat) :
    Except String (Int × Machine W) :=
  do
    assert (m.statics._initialized ≠ 0 ∧ m.statics._PdhLookupPerfNameByIndex ≠ 0) assertMessage
    return invoke svc m m.statics._PdhLookupPerfNameByIndex
      [szMachineName, dwNameIndex, szNameBuffer, pcchNameBufferSize]

/-- The source's `PdhDll::PdhMakeCounterPath` (lines 162-165). -/
def PdhMakeCounterPath {W : Type} (svc : Service W) (m : Machine W)
    (pCounterPathElements szFullPathBuffer pcchBufferSize dwFlags : Nat) :
    Except String (Int × Machine W) :=
  do
    assert (m.statics._initialized ≠ 0 ∧ m.statics._PdhMakeCounterPath ≠ 0) assertMessage
    return invoke svc m m.statics._PdhMakeCounterPath
      [pCounterPathElements, szFullPathBuffer, pcchBufferSize, dwFlags]

/-- The source's `PdhDll::PdhExpandWildCardPath` (lines 167-170). -/
def PdhExpandWildCardPath {W : Type} (svc : Service W) (m : Machine W)
    (szDataSource szWildCardPath mszExpandedPathList pcchPathListLength dwFlags : Nat) :
    Except String (Int × Machine W) :=
  do
    assert (m.statics._initialized ≠ 0 ∧ m.statics._PdhExpandWildCardPath ≠ 0) assertMessage
    return invoke svc m m.statics._PdhExpandWildCardPath
      [szDataSource, szWildCardPath, mszExpandedPathList, pcchPathListLength, dwFlags]

/-- The two constants `PdhStatusFail` compares with. The Windows headers that define them are
not among the sources, so the function takes them as parameters. -/
structure StatusConstants where
  ERROR_SUCCESS : Int
  PDH_MORE_DATA : Int
deriving DecidableEq, Repr

/-- The source's `PdhDll::PdhStatusFail` (lines 172-174). -/
def PdhStatusFail (k : StatusConstants) (pdhStat : Int) : Bool :=
  decide (pdhStat ≠ k.ERROR_SUCCESS) && decide (pdhStat ≠ k.PDH_MORE_DATA)

/-- A client call of the lifecycle interface. -/
inductive Call where
  | attach
  | detach
deriving DecidableEq, Repr

/-- One client call on the machine: its return value and the machine after it. -/
def step {W : Type} (fuel : Nat) (svc : Service W) : Call → Machine W → Option (Bool × Machine W)
  | Call.attach, m => PdhAttach fuel svc m
  | Call.detach, m => some (PdhDetach svc m)

/-- A single-threaded run of client calls: the return values in order and the final machine. -/
def run {W : Type} (fuel : Nat) (svc : Service W) :
    List Call → Machine W → Option (List Bool × Machine W)
  | [], m => some ([], m)
  | c :: cs, m =>
    match step fuel svc c m with
    | none => none
    | some r =>
      match run fuel svc cs r.2 with
      | none => none
      | some rs => some (r.1 :: rs.1, rs.2)

/-! ## Vocabulary of the specification -/

/-- The ten stored entry points, in the order the source declares them. -/
def entryPoints (s : State) : List Nat :=
  [s._PdhAddCounter, s._PdhOpenQuery, s._PdhCloseQuery, s._PdhCollectQueryData,
   s._PdhGetFormattedCounterValue, s._PdhEnumObjectItems, s._PdhRemoveCounter,
   s._PdhLookupPerfNameByIndex, s._PdhMakeCounterPath, s._PdhExpandWildCardPath]

/-- The ten symbol names, in the order `initialize` resolves them (lines 64-73). -/
def symbolNames : List String :=
  ["PdhAddCounterA", "PdhOpenQueryA", "PdhCloseQuery", "PdhCollectQueryData",
   "PdhGetFormattedCounterValue", "PdhEnumObjectItemsA", "PdhRemoveCounter",
   "PdhLookupPerfNameByIndexA", "PdhMakeCounterPathA", "PdhExpandWildCardPathA"]

/-- The addresses a service returns when `names` are resolved one after the other on the
module `h`, starting in world `w`. -/
def resolved {W : Type} (svc : Service W) (w : W) (h : Nat) : List String → List Nat
  | [] => []
  | n :: ns => (svc.GetProcAddress w h n).1 :: resolved svc (svc.GetProcAddress w h n).2 h ns

/-- The world after `names` were resolved one after the other. -/
def worldAfter {W : Type} (svc : Service W) (w : W) (h : Nat) : List String → W
  | [] => w
  | n :: ns => worldAfter svc (svc.GetProcAddress w h n).2 h ns

/-- The machine on which `PdhAttach` runs `initialize`: count raised, lock taken. -/
def locked {W : Type} (m : Machine W) : Machine W :=
  { m with statics := { m.statics with
      _pdh_reference_count := wrapLONG (m.statics._pdh_reference_count + 1)
      _critical_section := 1 } }

/-- Nothing is bound: not initialized, no module, every entry point empty, lock free. -/
def Clean (s : State) : Prop :=
  s._initialized = 0 ∧ s._hModule = 0 ∧ s._critical_section = 0 ∧ ∀ a ∈ entryPoints s, a = 0

/-- A module is bound: initialized, module handle non-empty, lock free. -/
def Loaded (s : State) : Prop :=
  s._initialized = 1 ∧ s._hModule ≠ 0 ∧ s._critical_section = 0

/-- The shape of the statics between two calls of a single-threaded run. -/
def Inv (s : State) : Prop := Clean s ∨ Loaded s

instance (s : State) : Decidable (Clean s) := by unfold Clean; infer_instance

instance (s : State) : Decidable (Loaded s) := by unfold Loaded; infer_instance

instance (s : State) : Decidable (Inv s) := by unfold Inv; infer_instance

/-- Number of `PdhAttach` calls in a run. -/
def attaches (calls : List Call) : Nat := calls.count Call.attach

/-- Number of `PdhDetach` calls in a run. -/
def detaches (calls : List Call) : Nat := calls.count Call.detach

/-- A service whose library loads and in which every symbol but `PdhAddCounterA` resolves. -/
def partialService : Service Unit where
  load_Windows_dll := fun w _ => (1, w)
  GetProcAddress := fun w _ name => (if name = "PdhAddCounterA" then 0 else 4096, w)
  FreeLibrary := fun w _ => (1, w)
  call := fun w _ _ => (0, w)

/-- A service on a machine without the library: every load returns the empty handle. -/
def absentService : Service Unit where
  load_Windows_dll := fun w _ => (0, w)
  GetProcAddress := fun w _ _ => (4096, w)
  FreeLibrary := fun w _ => (1, w)
  call := fun w _ _ => (0, w)

/-- A service with the library and all of its symbols; native code returns its
first argument. -/
def fullService : Service Unit where
  load_Windows_dll := fun w _ => (1, w)
  GetProcAddress := fun w _ name => (4096 + name.length, w)
  FreeLibrary := fun w _ => (1, w)
  call := fun w _ args => (args.headD 0, w)

/-- Number of calls to load in a trace. -/
def loadCalls (t : List Event) : Nat :=
  t.countP (fun e => match e with
    | Event.load_Windows_dll _ => true
    | _ => false)

/-- Number of calls that resolve the symbol `name` in a trace. -/
def resolveCalls (name : String) (t : List Event) : Nat :=
  t.countP (fun e => match e with
    | Event.GetProcAddress _ n => n == name
    | _ => false)

/-- Number of calls to unload in a trace. -/
def unloadCalls (t : List Event) : Nat :=
  t.countP (fun e => match e with
    | Event.FreeLibrary _ => true
    | _ => false)

/-- A machine as one full `PdhAttach` leaves it: module 1 bound, every entry point resolved. -/
def boundMachine : Machine Unit :=
  { statics :=
      { _PdhAddCounter := 4110, _PdhOpenQuery := 4109, _PdhCloseQuery := 4109,
        _PdhCollectQueryData := 4115, _PdhGetFormattedCounterValue := 4123,
        _PdhEnumObjectItems := 4115, _PdhRemoveCounter := 4112,
        _PdhLookupPerfNameByIndex := 4121, _PdhMakeCounterPath := 4115,
        _PdhExpandWildCardPath := 4118, _critical_section := 0, _initialized := 1,
        _pdh_reference_count := 1, _hModule := 1 },
    world := (),
    trace := Event.load_Windows_dll "pdh.dll" :: symbolNames.map (Event.GetProcAddress 1) }

/-- What a proxy does on an initialized binding: with a stored address `ep` it forwards
`args` to the native code at `ep`; with an empty `ep` it fails its assertion. -/
def Served {W : Type} (svc : Service W) (m : Machine W) (ep : Nat) (args : List Nat)
    (result : Except String (Int × Machine W)) : Prop :=
  (ep ≠ 0 → result = Except.ok (invoke svc m ep args))
    ∧ (ep = 0 → result = Except.error assertMessage)

/-- What a proxy does: when the binding is initialized and the entry point `ep` is non-empty,
the result is the value the native code at `ep` returns on `args`, the statics are left as
they were and the one call made is that to `ep`; otherwise the assertion fails. -/
def Forwards {W : Type} (svc : Service W) (m : Machine W) (ep : Nat) (args : List Nat)
    (result : Except String (Int × Machine W)) : Prop :=
  (m.statics._initialized ≠ 0 ∧ ep ≠ 0 →
      result = Except.ok ((svc.call m.world ep args).1,
        { statics := m.statics, world := (svc.call m.world ep args).2,
          trace := m.trace ++ [Event.call ep args] }))
    ∧ (¬(m.statics._initialized ≠ 0 ∧ ep ≠ 0) → result = Except.error assertMessage)

/-- The calls one successful `initialize` makes on module `h`: load, then the ten resolves. -/
def bindCalls (h : Nat) : List Event :=
  Event.load_Windows_dll "pdh.dll" :: symbolNames.map (Event.GetProcAddress h)

/-- The values the Windows SDK gives the two constants: `ERROR_SUCCESS` is `0L` (winerror.h)
and `PDH_MORE_DATA` is `((DWORD)0x800007D2L)` (pdhmsg.h), which as a 32-bit signed
`PDH_STATUS` is -2147481646. -/
def windowsSDK : StatusConstants := { ERROR_SUCCESS := 0, PDH_MORE_DATA := -2147481646 }

/-- A service whose library is complete but refuses to unload. -/
def stuckService : Service Unit where
  load_Windows_dll := fun w _ => (1, w)
  GetProcAddress := fun w _ name => (4096 + name.length, w)
  FreeLibrary := fun w _ => (0, w)
  call := fun w _ args => (args.headD 0, w)

/-- The machine a machine without the library reaches by one `PdhAttach`. -/
def failedOnce : Machine Unit :=
  { statics := { _pdh_reference_count := 1 }, world := (),
    trace := [Event.load_Windows_dll "pdh.dll"] }

/-- The number of calls to load that return the empty handle before one returns a module,
among at most `n` calls made one after the other from the world `w`: `n` when all fail. -/
def failedLoads {W : Type} (svc : Service W) : Nat → W → Nat
  | 0, _ => 0
  | n + 1, w =>
    if (svc.load_Windows_dll w "pdh.dll").1 = 0 then
      failedLoads svc n (svc.load_Windows_dll w "pdh.dll").2 + 1
    else 0

/-- The world after `k` calls to load made one after the other from the world `w`. -/
def worldAfterLoads {W : Type} (svc : Service W) : Nat → W → W
  | 0, w => w
  | k + 1, w => worldAfterLoads svc k (svc.load_Windows_dll w "pdh.dll").2

/-- A service whose first two loads fail and whose later loads return module 1; its world
counts the loads made. -/
def flakyService : Service Nat where
  load_Windows_dll := fun w _ => (if w < 2 then 0 else 1, w + 1)
  GetProcAddress := fun w _ name => (4096 + name.length, w)
  FreeLibrary := fun w _ => (1, w)
  call := fun w _ args => (args.headD 0, w)

/-- The bound machine after a `PdhDetach` whose unload was refused. -/
def refusedMachine : Machine Unit :=
  { boundMachine with
    statics := { boundMachine.statics with _pdh_reference_count := 0 },
    trace := boundMachine.trace ++ [Event.FreeLibrary 1] }

end PdhDll

/-! # The native thread mirror of the test library -/

namespace NativeThread

/-- The mirror `struct STRUCT_THREAD` (lines 60-71) of
`test/hotspot/jtreg/vmTestbase/nsk/share/native/native_thread.cpp`. The type `PROCEDURE` is
declared in native_thread.hpp, which is not among the sources; line 99 calls it on the
context and stores what it returns in the `int` field `status`, so it is a function from
the context pointer to an integer. Pointers are natural numbers. -/
structure THREAD where
  procedure : Nat → Int
  context : Nat
  started : Int
  finished : Int
  status : Int
  id : Nat

/-- The source's `THREAD_new` (lines 78-88). `malloc` is what the allocation returns: `none`
for `nullptr`, otherwise the fresh block with whatever it holds. A `void*` to a mirror is an
`Option THREAD`. -/
def THREAD_new (malloc : Option THREAD) (procedure : Nat → Int) (context : Nat) :
    Option THREAD :=
  match malloc with
  | none => none
  | some thread =>
    some { thread with
      procedure := procedure
      context := context
      started := 0
      finished := 0
      status := -1 }

/-- The source's thread body `procedure` (lines 93-106), run to its end on the mirror. -/
def procedure (thread : THREAD) : THREAD :=
  let thread := { thread with started := 1 }
  let thread := { thread with status := thread.procedure thread.context }
  { thread with finished := 1 }

/-- The source's `THREAD_start` (lines 111-148): whether it returns the thread (true) or
`nullptr` (false), and the mirror after the call. `create` is the operating system's answer
to the request for a new thread: its id, or `none` when none could be created. The new
thread runs `procedure` on the mirror later. -/
def THREAD_start (create : Option Nat) (t : Option THREAD) : Bool × Option THREAD :=
  match t with
  | none => (false, none)
  | some thread =>
    if thread.started ≠ 0 then (false, some thread)
    else
      let thread := { thread with finished := 0, status := 0 }
      match create with
      | none => (false, some thread)
      | some id => (true, some { thread with id := id })

/-- The source's `THREAD_hasFinished` (lines 168-173). -/
def THREAD_hasFinished (t : Option THREAD) : Int :=
  match t with
  | none => -1
  | some thread => if thread.finished = 1 then 1 else 0

/-- The source's `THREAD_status` (lines 180-185). -/
def THREAD_status (t : Option THREAD) : Int :=
  match t with
  | none => -1
  | some thread => thread.status

end NativeThread

namespace PdhDll

/-! ## Lemmas on the primitives and on single calls -/

theorem wrapLONG_of_range (x : Int) (h1 : -2147483648 ≤ x) (h2 : x < 2147483648) :
    wrapLONG x = x := by
  unfold wrapLONG; omega

theorem wrapLONG_add (a b : Int) : wrapLONG (wrapLONG a + b) = wrapLONG (a + b) := by
  unfold wrapLONG; omega

theorem acquireLoop_free (fuel : Nat) : acquireLoop (fuel + 1) 0 = some 1 := by
  simp [acquireLoop, InterlockedCompareExchange]

theorem releaseLoop_held (fuel : Nat) : releaseLoop (fuel + 1) 1 = some 0 := by
  simp [releaseLoop, InterlockedCompareExchange]

theorem initialize_fail {W : Type} (svc : Service W) (m : Machine W)
    (h : (svc.load_Windows_dll m.world "pdh.dll").1 = 0) :
    initialize_ svc m =
      { statics := { m.statics with _hModule := 0 },
        world := (svc.load_Windows_dll m.world "pdh.dll").2,
        trace := m.trace ++ [Event.load_Windows_dll "pdh.dll"] } := by
  simp [initialize_, h]

theorem initialize_ok {W : Type} (svc : Service W) (m : Machine W)
    (h : (svc.load_Windows_dll m.world "pdh.dll").1 ≠ 0) :
    (initialize_ svc m).statics._initialized = 1
    ∧ (initialize_ svc m).statics._hModule = (svc.load_Windows_dll m.world "pdh.dll").1
    ∧ (initialize_ svc m).statics._critical_section = m.statics._critical_section
    ∧ (initialize_ svc m).statics._pdh_reference_count = m.statics._pdh_reference_count
    ∧ entryPoints (initialize_ svc m).statics =
        resolved svc (svc.load_Windows_dll m.world "pdh.dll").2
          (svc.load_Windows_dll m.world "pdh.dll").1 symbolNames
    ∧ (initialize_ svc m).world =
        worldAfter svc (svc.load_Windows_dll m.world "pdh.dll").2
          (svc.load_Windows_dll m.world "pdh.dll").1 symbolNames
    ∧ (initialize_ svc m).trace =
        m.trace ++ Event.load_Windows_dll "pdh.dll" ::
          symbolNames.map (Event.GetProcAddress (svc.load_Windows_dll m.world "pdh.dll").1) := by
  simp [initialize_, h, getProc, InterlockedExchange, entryPoints, resolved, symbolNames,
    worldAfter]

theorem initialize_critical_section {W : Type} (svc : Service W) (m : Machine W) :
    (initialize_ svc m).statics._critical_section = m.statics._critical_section := by
  unfold initialize_
  simp only []
  split <;> simp [getProc]

theorem PdhAttach_fast {W : Type} (fuel : Nat) (svc : Service W) (m : Machine W)
    (h : m.statics._initialized = 1) :
    PdhAttach fuel svc m = some (true,
      { m with statics := { m.statics with
          _pdh_reference_count := wrapLONG (m.statics._pdh_reference_count + 1) } }) := by
  simp [PdhAttach, h, InterlockedExchangeAdd]

theorem PdhAttach_slow {W : Type} (fuel : Nat) (svc : Service W) (m : Machine W)
    (h : m.statics._initialized = 0) (hcs : m.statics._critical_section = 0) :
    PdhAttach (fuel + 1) svc m = some
      (allResolved (initialize_ svc (locked m)).statics,
       { initialize_ svc (locked m) with
         statics := { (initialize_ svc (locked m)).statics with _critical_section := 0 } }) := by
  have hc : (initialize_ svc (locked m)).statics._critical_section = 1 := by
    rw [initialize_critical_section]; rfl
  unfold PdhAttach
  simp only [InterlockedExchangeAdd]
  rw [if_neg (by simp [h])]
  simp only [hcs, acquireLoop_free]
  rw [if_pos h]
  change (match releaseLoop (fuel + 1) (initialize_ svc (locked m)).statics._critical_section with
    | none => none
    | some cs2 => _) = _
  rw [hc, releaseLoop_held]
  simp only [allResolved, locked]

theorem allResolved_eq_false_of_clean (s : State) (h : Clean s) : allResolved s = false := by
  obtain ⟨_, _, _, h⟩ := h
  have := h s._PdhAddCounter (by simp [entryPoints])
  simp [allResolved, this]

/-- `PdhAttach` on a clean binding whose load fails. -/
theorem PdhAttach_clean_fail {W : Type} (fuel : Nat) (svc : Service W) (m : Machine W)
    (hm : Clean m.statics) (hl : (svc.load_Windows_dll m.world "pdh.dll").1 = 0) :
    PdhAttach (fuel + 1) svc m = some (false,
      { statics := { m.statics with
          _pdh_reference_count := wrapLONG (m.statics._pdh_reference_count + 1) },
        world := (svc.load_Windows_dll m.world "pdh.dll").2,
        trace := m.trace ++ [Event.load_Windows_dll "pdh.dll"] }) := by
  obtain ⟨h1, h2, h3, h4⟩ := hm
  have ha : m.statics._PdhAddCounter = 0 := h4 _ (by simp [entryPoints])
  rw [PdhAttach_slow fuel svc m h1 h3, initialize_fail svc (locked m) hl]
  simp [locked, allResolved, ha, h2, h3]

/-- `PdhAttach` on a clean binding whose load succeeds. -/
theorem PdhAttach_clean_ok {W : Type} (fuel : Nat) (svc : Service W) (m : Machine W)
    (hm : Clean m.statics) (hl : (svc.load_Windows_dll m.world "pdh.dll").1 ≠ 0) :
    ∃ m1, PdhAttach (fuel + 1) svc m = some (allResolved m1.statics, m1)
      ∧ Loaded m1.statics
      ∧ m1.statics._hModule = (svc.load_Windows_dll m.world "pdh.dll").1
      ∧ m1.statics._pdh_reference_count = wrapLONG (m.statics._pdh_reference_count + 1)
      ∧ entryPoints m1.statics =
          resolved svc (svc.load_Windows_dll m.world "pdh.dll").2
            (svc.load_Windows_dll m.world "pdh.dll").1 symbolNames
      ∧ m1.world =
          worldAfter svc (svc.load_Windows_dll m.world "pdh.dll").2
            (svc.load_Windows_dll m.world "pdh.dll").1 symbolNames
      ∧ m1.trace = m.trace ++ Event.load_Windows_dll "pdh.dll" ::
          symbolNames.map (Event.GetProcAddress (svc.load_Windows_dll m.world "pdh.dll").1) := by
  obtain ⟨h1, h2, h3, h4⟩ := hm
  obtain ⟨i1, i2, i3, i4, i5, i6, i7⟩ := initialize_ok svc (locked m) hl
  refine ⟨{ initialize_ svc (locked m) with
         statics := { (initialize_ svc (locked m)).statics with _critical_section := 0 } },
    ?_, ?_, ?_, ?_, ?_, ?_, ?_⟩
  · rw [PdhAttach_slow fuel svc m h1 h3]
    simp [allResolved]
  · exact ⟨i1, by simpa [i2] using hl, rfl⟩
  · exact i2
  · exact i4
  · exact i5
  · exact i6
  · exact i7

theorem PdhDetach_count {W : Type} (svc : Service W) (m : Machine W) :
    (PdhDetach svc m).2.statics._pdh_reference_count
      = wrapLONG (m.statics._pdh_reference_count - 1) := by
  unfold PdhDetach
  simp only [InterlockedExchangeAdd]
  split_ifs <;> rfl

theorem PdhDetach_not_last {W : Type} (svc : Service W) (m : Machine W)
    (h : m.statics._pdh_reference_count ≠ 1) :
    PdhDetach svc m = (false, { m with statics := { m.statics with
      _pdh_reference_count := wrapLONG (m.statics._pdh_reference_count - 1) } }) := by
  unfold PdhDetach
  simp only [InterlockedExchangeAdd]
  rw [if_neg h]
  rfl

theorem PdhDetach_not_initialized {W : Type} (svc : Service W) (m : Machine W)
    (h : m.statics._initialized = 0) :
    PdhDetach svc m = (false, { m with statics := { m.statics with
      _pdh_reference_count := wrapLONG (m.statics._pdh_reference_count - 1) } }) := by
  unfold PdhDetach
  simp only [InterlockedExchangeAdd]
  split_ifs with h1 h2 h3 <;> first | rfl | exact absurd h h2.1

theorem PdhDetach_last_loaded {W : Type} (svc : Service W) (m : Machine W)
    (hc : m.statics._pdh_reference_count = 1) (hm : Loaded m.statics) :
    PdhDetach svc m =
      if (svc.FreeLibrary m.world m.statics._hModule).1 ≠ 0 then
        (true, { statics := {},
                 world := (svc.FreeLibrary m.world m.statics._hModule).2,
                 trace := m.trace ++ [Event.FreeLibrary m.statics._hModule] })
      else
        (false, { statics := { m.statics with _pdh_reference_count := 0 },
                  world := (svc.FreeLibrary m.world m.statics._hModule).2,
                  trace := m.trace ++ [Event.FreeLibrary m.statics._hModule] }) := by
  obtain ⟨h1, h2, h3⟩ := hm
  have hw : wrapLONG (1 + -1) = 0 := by decide
  unfold PdhDetach
  simp only [InterlockedExchangeAdd, hc, hw, InterlockedExchange]
  split_ifs with a b b <;> simp_all

theorem PdhDetach_inv {W : Type} (svc : Service W) (m : Machine W) (hm : Inv m.statics) :
    Inv (PdhDetach svc m).2.statics := by
  rcases hm with hm | hm
  · rw [PdhDetach_not_initialized svc m hm.1]
    exact Or.inl hm
  · by_cases hc : m.statics._pdh_reference_count = 1
    · rw [PdhDetach_last_loaded svc m hc hm]
      split_ifs
      · left; simp [Clean, entryPoints]
      · right; exact hm
    · rw [PdhDetach_not_last svc m hc]
      exact Or.inr hm

theorem PdhAttach_inv {W : Type} (fuel : Nat) (svc : Service W) (m : Machine W)
    (hm : Inv m.statics) :
    ∃ r m1, PdhAttach (fuel + 1) svc m = some (r, m1) ∧ Inv m1.statics
      ∧ m1.statics._pdh_reference_count = wrapLONG (m.statics._pdh_reference_count + 1) := by
  rcases hm with hm | hm
  · by_cases hl : (svc.load_Windows_dll m.world "pdh.dll").1 = 0
    · exact ⟨_, _, PdhAttach_clean_fail fuel svc m hm hl, Or.inl hm, rfl⟩
    · obtain ⟨m1, h1, h2, -, h4, -⟩ := PdhAttach_clean_ok fuel svc m hm hl
      exact ⟨_, _, h1, Or.inr h2, h4⟩
  · exact ⟨_, _, PdhAttach_fast (fuel + 1) svc m hm.1, Or.inr hm, rfl⟩

theorem run_append {W : Type} (fuel : Nat) (svc : Service W) (xs ys : List Call)
    (m m1 m2 : Machine W) (r1 r2 : List Bool)
    (h1 : run fuel svc xs m = some (r1, m1)) (h2 : run fuel svc ys m1 = some (r2, m2)) :
    run fuel svc (xs ++ ys) m = some (r1 ++ r2, m2) := by
  induction xs generalizing m r1 with
  | nil =>
    simp only [run, Option.some.injEq, Prod.mk.injEq] at h1
    obtain ⟨rfl, rfl⟩ := h1
    simpa using h2
  | cons c cs ih =>
    simp only [List.cons_append, run] at h1 ⊢
    cases hs : step fuel svc c m with
    | none => simp [hs] at h1
    | some r =>
      simp only [hs] at h1 ⊢
      cases hr : run fuel svc cs r.2 with
      | none => simp [hr] at h1
      | some rs =>
        simp only [hr, Option.some.injEq, Prod.mk.injEq] at h1
        obtain ⟨rfl, rfl⟩ := h1
        have e := ih r.2 rs.1 hr
        change (match run fuel svc (cs ++ ys) r.2 with
          | none => none
          | some rs => some (r.1 :: rs.1, rs.2)) = _
        rw [e]
        rfl

theorem run_inv {W : Type} (fuel : Nat) (svc : Service W) (calls : List Call) (m : Machine W)
    (hm : Inv m.statics)
    (hc : wrapLONG m.statics._pdh_reference_count = m.statics._pdh_reference_count) :
    ∃ rets m1, run (fuel + 1) svc calls m = some (rets, m1) ∧ rets.length = calls.length
      ∧ Inv m1.statics
      ∧ m1.statics._pdh_reference_count
          = wrapLONG (m.statics._pdh_reference_count + attaches calls - detaches calls) := by
  induction calls generalizing m with
  | nil =>
    refine ⟨[], m, rfl, rfl, hm, ?_⟩
    simp only [attaches, detaches, List.count_nil, Nat.cast_zero, add_zero, sub_zero]
    exact hc.symm
  | cons c cs ih =>
    cases c with
    | attach =>
      obtain ⟨r, m1, h1, h2, h3⟩ := PdhAttach_inv fuel svc m hm
      obtain ⟨rets, m2, k1, k2, k3, k4⟩ := ih m1 h2 (by rw [h3]; unfold wrapLONG; omega)
      refine ⟨r :: rets, m2, ?_, by simp [k2], k3, ?_⟩
      · simp [run, step, h1, k1]
      · rw [k4, h3]
        have : attaches (Call.attach :: cs) = attaches cs + 1 := by simp [attaches]
        have : detaches (Call.attach :: cs) = detaches cs := by simp [detaches]
        unfold wrapLONG
        omega
    | detach =>
      obtain ⟨rets, m2, k1, k2, k3, k4⟩ := ih (PdhDetach svc m).2 (PdhDetach_inv svc m hm)
        (by rw [PdhDetach_count]; unfold wrapLONG; omega)
      refine ⟨(PdhDetach svc m).1 :: rets, m2, ?_, by simp [k2], k3, ?_⟩
      · simp [run, step, k1]
      · rw [k4, PdhDetach_count]
        have : attaches (Call.detach :: cs) = attaches cs := by simp [attaches]
        have : detaches (Call.detach :: cs) = detaches cs + 1 := by simp [detaches]
        unfold wrapLONG
        omega

theorem initialize_trace {W : Type} (svc : Service W) (m : Machine W) :
    (m.trace ++ [Event.load_Windows_dll "pdh.dll"]) <+: (initialize_ svc m).trace := by
  by_cases hl : (svc.load_Windows_dll m.world "pdh.dll").1 = 0
  · rw [initialize_fail svc m hl]
  · rw [(initialize_ok svc m hl).2.2.2.2.2.2]
    exact ⟨symbolNames.map (Event.GetProcAddress (svc.load_Windows_dll m.world "pdh.dll").1),
      by simp⟩

theorem PdhAttach_uninitialized_calls_load {W : Type} (fuel : Nat) (svc : Service W)
    (m : Machine W) (hi : m.statics._initialized = 0) (hcs : m.statics._critical_section = 0) :
    ∃ r m1, PdhAttach (fuel + 1) svc m = some (r, m1)
      ∧ (m.trace ++ [Event.load_Windows_dll "pdh.dll"]) <+: m1.trace :=
  ⟨_, _, PdhAttach_slow fuel svc m hi hcs, initialize_trace svc (locked m)⟩

theorem attaches_replicate_attach (n : Nat) :
    attaches (List.replicate n Call.attach) = n ∧ detaches (List.replicate n Call.attach) = 0 := by
  simp [attaches, detaches, List.count_replicate]

theorem boot_inv {W : Type} (w : W) : Inv (boot w).statics :=
  Or.inl ⟨rfl, rfl, rfl, by simp [boot, entryPoints]⟩

/-- Detaches that are not the last one change the reference count and nothing else. -/
theorem run_detach_frame {W : Type} (fuel : Nat) (svc : Service W) (k : Nat) (m : Machine W)
    (hk : (k : Int) < m.statics._pdh_reference_count)
    (hc : m.statics._pdh_reference_count < 2147483648) :
    run fuel svc (List.replicate k Call.detach) m = some (List.replicate k false,
      { m with statics := { m.statics with
          _pdh_reference_count := m.statics._pdh_reference_count - k } }) := by
  induction k generalizing m with
  | zero => simp [run]
  | succ k ih =>
    have h1 : m.statics._pdh_reference_count ≠ 1 := by omega
    have hw : wrapLONG (m.statics._pdh_reference_count - 1)
        = m.statics._pdh_reference_count - 1 := by
      apply wrapLONG_of_range <;> omega
    simp only [List.replicate_succ, run, step]
    rw [PdhDetach_not_last svc m h1, hw]
    simp only []
    rw [ih _ (by simp only []; omega) (by simp only []; omega)]
    simp only [Option.some.injEq, Prod.mk.injEq, true_and]
    congr 2
    push_cast
    ring

theorem wrapLONG_zero : wrapLONG 0 = 0 := by decide

/-- `N` attaches from the initial state: they all return, the binding keeps its shape and the
count is `N` reduced to the `LONG` range. -/
theorem run_attach_phase {W : Type} (fuel : Nat) (svc : Service W) (w : W) (N : Nat) :
    ∃ rets m, run (fuel + 1) svc (List.replicate N Call.attach) (boot w) = some (rets, m)
      ∧ Inv m.statics ∧ m.statics._pdh_reference_count = wrapLONG N := by
  obtain ⟨rets, m, h1, -, h3, h4⟩ :=
    run_inv fuel svc (List.replicate N Call.attach) (boot w) (boot_inv w) wrapLONG_zero
  refine ⟨rets, m, h1, h3, ?_⟩
  rw [h4, (attaches_replicate_attach N).1, (attaches_replicate_attach N).2]
  simp [boot]

/-- Attaches on a loaded binding take the fast path: they return true and only count. -/
theorem run_attach_loaded {W : Type} (fuel : Nat) (svc : Service W) (n : Nat) (m : Machine W)
    (hm : m.statics._initialized = 1) :
    run fuel svc (List.replicate n Call.attach) m = some (List.replicate n true,
      { m with statics := { m.statics with
          _pdh_reference_count := if n = 0 then m.statics._pdh_reference_count
            else wrapLONG (m.statics._pdh_reference_count + n) } }) := by
  induction n generalizing m with
  | zero => simp [run]
  | succ n ih =>
    simp only [List.replicate_succ, run, step]
    rw [PdhAttach_fast fuel svc m hm]
    simp only []
    rw [ih _ (by exact hm)]
    simp only [Option.some.injEq, Prod.mk.injEq, true_and]
    congr 2
    by_cases hn : n = 0
    · simp [hn]
    · simp only [hn, if_false, Nat.succ_ne_zero, Nat.cast_succ]
      unfold wrapLONG
      omega

theorem trace_counts (h : Nat) :
    loadCalls (Event.load_Windows_dll "pdh.dll" ::
        symbolNames.map (Event.GetProcAddress h) ++ [Event.FreeLibrary h]) = 1
    ∧ (∀ name ∈ symbolNames, resolveCalls name (Event.load_Windows_dll "pdh.dll" ::
        symbolNames.map (Event.GetProcAddress h) ++ [Event.FreeLibrary h]) = 1)
    ∧ unloadCalls (Event.load_Windows_dll "pdh.dll" ::
        symbolNames.map (Event.GetProcAddress h) ++ [Event.FreeLibrary h]) = 1 := by
  refine ⟨?_, ?_, ?_⟩
  · simp [loadCalls, symbolNames, List.countP_cons]
  · intro name hn
    simp only [symbolNames, List.mem_cons, List.mem_singleton, List.not_mem_nil, or_false] at hn
    rcases hn with rfl | rfl | rfl | rfl | rfl | rfl | rfl | rfl | rfl | rfl <;>
      simp [resolveCalls, symbolNames, List.countP_cons]
  · simp [unloadCalls, symbolNames, List.countP_cons]

theorem boot_clean {W : Type} (w : W) : Clean (boot w).statics :=
  ⟨rfl, rfl, rfl, by simp [boot, entryPoints]⟩

/-- When the first load succeeds, `N` attaches and `N` detaches make exactly these calls:
one load, one resolve of each of the ten symbols, one unload of the loaded module. -/
theorem run_cycle_of_load_ok {W : Type} (fuel : Nat) (svc : Service W) (w : W)
    (N : Nat) (hN : 1 ≤ N) (hlong : N < 2147483648)
    (hload : (svc.load_Windows_dll w "pdh.dll").1 ≠ 0) :
    ∃ rets m, run (fuel + 1) svc
          (List.replicate N Call.attach ++ List.replicate N Call.detach) (boot w)
        = some (rets, m)
      ∧ m.trace = Event.load_Windows_dll "pdh.dll" ::
          symbolNames.map (Event.GetProcAddress (svc.load_Windows_dll w "pdh.dll").1)
            ++ [Event.FreeLibrary (svc.load_Windows_dll w "pdh.dll").1]
      ∧ loadCalls m.trace = 1
      ∧ (∀ name ∈ symbolNames, resolveCalls name m.trace = 1)
      ∧ unloadCalls m.trace = 1 := by
  obtain ⟨n, rfl⟩ : ∃ n, N = n + 1 := ⟨N - 1, by omega⟩
  obtain ⟨m1, h1, hL, hH, hC, -, -, hT⟩ :=
    PdhAttach_clean_ok fuel svc (boot w) (boot_clean w) hload
  have hC1 : m1.statics._pdh_reference_count = 1 := by
    rw [hC]; exact wrapLONG_of_range _ (by simp [boot]) (by simp [boot])
  -- the remaining attaches take the fast path
  have h2 := run_attach_loaded (fuel + 1) svc n m1 hL.1
  have hcount : (if n = 0 then m1.statics._pdh_reference_count
      else wrapLONG (m1.statics._pdh_reference_count + n)) = (n : Int) + 1 := by
    rw [hC1]
    split_ifs with hn
    · simp [hn]
    · rw [wrapLONG_of_range] <;> omega
  rw [hcount] at h2
  -- the detaches before the last one only count down
  have h3 := run_detach_frame (fuel + 1) svc n
    { m1 with statics := { m1.statics with _pdh_reference_count := (n : Int) + 1 } }
    (by simp only []; omega) (by simp only []; omega)
  simp only [add_sub_cancel_left] at h3
  -- the last detach calls unload
  have h4 := PdhDetach_last_loaded svc
    { m1 with statics := { m1.statics with _pdh_reference_count := 1 } } rfl hL
  have hstep : ∀ m0 : Machine W, run (fuel + 1) svc [Call.detach] m0
      = some ([(PdhDetach svc m0).1], (PdhDetach svc m0).2) := fun m0 => by simp [run, step]
  have hfirst : run (fuel + 1) svc [Call.attach] (boot w)
      = some ([allResolved m1.statics], m1) := by simp [run, step, h1]
  have hall := run_append _ _ _ _ _ _ _ _ _ hfirst
    (run_append _ _ _ _ _ _ _ _ _ h2 (run_append _ _ _ _ _ _ _ _ _ h3 (hstep _)))
  have hlist : [Call.attach] ++ (List.replicate n Call.attach
      ++ (List.replicate n Call.detach ++ [Call.detach]))
      = List.replicate (n + 1) Call.attach ++ List.replicate (n + 1) Call.detach := by
    rw [List.replicate_succ' n Call.detach, List.replicate_succ]
    simp
  rw [hlist] at hall
  refine ⟨_, _, hall, ?_⟩
  have htrace : (PdhDetach svc { m1 with statics :=
      { m1.statics with _pdh_reference_count := 1 } }).2.trace
      = Event.load_Windows_dll "pdh.dll" ::
          symbolNames.map (Event.GetProcAddress (svc.load_Windows_dll w "pdh.dll").1)
            ++ [Event.FreeLibrary (svc.load_Windows_dll w "pdh.dll").1] := by
    rw [h4]
    split_ifs <;> simp [hT, hH, boot]
  have hcounts := trace_counts (svc.load_Windows_dll w "pdh.dll").1
  rw [← htrace] at hcounts
  exact ⟨htrace, hcounts⟩

theorem unloadCalls_append_load (t : List Event) (name : String) :
    unloadCalls (t ++ [Event.load_Windows_dll name]) = unloadCalls t := by
  simp [unloadCalls, List.countP_append, List.countP_cons]

theorem run_cons {W : Type} (fuel : Nat) (svc : Service W) (c : Call) (cs : List Call)
    (m m1 m2 : Machine W) (r : Bool) (rs : List Bool)
    (h1 : step fuel svc c m = some (r, m1)) (h2 : run fuel svc cs m1 = some (rs, m2)) :
    run fuel svc (c :: cs) m = some (r :: rs, m2) := by
  simp [run, h1, h2]

theorem PdhAttach_absent {W : Type} (fuel : Nat) (svc : Service W)
    (hload : ∀ w name, (svc.load_Windows_dll w name).1 = 0) (m : Machine W)
    (hm : Clean m.statics) :
    ∃ m1, PdhAttach (fuel + 1) svc m = some (false, m1) ∧ Clean m1.statics
      ∧ unloadCalls m1.trace = unloadCalls m.trace :=
  ⟨_, PdhAttach_clean_fail fuel svc m hm (hload _ _), hm, unloadCalls_append_load _ _⟩

theorem PdhDetach_clean {W : Type} (svc : Service W) (m : Machine W) (hm : Clean m.statics) :
    ∃ m1, PdhDetach svc m = (false, m1) ∧ Clean m1.statics ∧ m1.trace = m.trace :=
  ⟨_, PdhDetach_not_initialized svc m hm.1, hm, rfl⟩

/-- With a load that always fails, every call of a run returns false, the binding stays
unbound, and unload is never called. -/
theorem run_absent {W : Type} (fuel : Nat) (svc : Service W)
    (hload : ∀ w name, (svc.load_Windows_dll w name).1 = 0)
    (calls : List Call) (m : Machine W) (hm : Clean m.statics) :
    ∃ m1, run (fuel + 1) svc calls m = some (List.replicate calls.length false, m1)
      ∧ Clean m1.statics ∧ unloadCalls m1.trace = unloadCalls m.trace := by
  induction calls generalizing m with
  | nil => exact ⟨m, rfl, hm, rfl⟩
  | cons c cs ih =>
    cases c with
    | attach =>
      obtain ⟨m1, h1, h2, h3⟩ := PdhAttach_absent fuel svc hload m hm
      obtain ⟨m2, k1, k2, k3⟩ := ih m1 h2
      exact ⟨m2, run_cons _ _ _ _ _ _ _ _ _ h1 k1, k2, by rw [k3, h3]⟩
    | detach =>
      obtain ⟨m1, h1, h2, h3⟩ := PdhDetach_clean svc m hm
      obtain ⟨m2, k1, k2, k3⟩ := ih m1 h2
      refine ⟨m2, run_cons _ _ _ _ _ _ _ _ _ ?_ k1, k2, by rw [k3, h3]⟩
      simp [step, h1]

theorem allResolved_eq_false_of_mem (s : State) (h : 0 ∈ entryPoints s) :
    allResolved s = false := by
  simp only [entryPoints, List.mem_cons, List.mem_singleton, List.not_mem_nil, or_false] at h
  simp only [allResolved, Bool.and_eq_false_iff, decide_eq_false_iff_not, not_not]
  rcases h with h | h | h | h | h | h | h | h | h | h <;> simp [← h]

theorem served_of_initialized {W : Type} (svc : Service W) (m : Machine W)
    (hi : m.statics._initialized = 1) :
    (∀ a b c d, Served svc m m.statics._PdhAddCounter [a, b, c, d]
        (PdhAddCounter svc m a b c d))
    ∧ (∀ a b c, Served svc m m.statics._PdhOpenQuery [a, b, c] (PdhOpenQuery svc m a b c))
    ∧ (∀ a, Served svc m m.statics._PdhCloseQuery [a] (PdhCloseQuery svc m a))
    ∧ (∀ a, Served svc m m.statics._PdhCollectQueryData [a] (PdhCollectQueryData svc m a))
    ∧ (∀ a b c d, Served svc m m.statics._PdhGetFormattedCounterValue [a, b, c, d]
        (PdhGetFormattedCounterValue svc m a b c d))
    ∧ (∀ a b c d e f g h i, Served svc m m.statics._PdhEnumObjectItems
        [a, b, c, d, e, f, g, h, i] (PdhEnumObjectItems svc m a b c d e f g h i))
    ∧ (∀ a, Served svc m m.statics._PdhRemoveCounter [a] (PdhRemoveCounter svc m a))
    ∧ (∀ a b c d, Served svc m m.statics._PdhLookupPerfNameByIndex [a, b, c, d]
        (PdhLookupPerfNameByIndex svc m a b c d))
    ∧ (∀ a b c d, Served svc m m.statics._PdhMakeCounterPath [a, b, c, d]
        (PdhMakeCounterPath svc m a b c d))
    ∧ (∀ a b c d e, Served svc m m.statics._PdhExpandWildCardPath [a, b, c, d, e]
        (PdhExpandWildCardPath svc m a b c d e)) := by
  refine ⟨?_, ?_, ?_, ?_, ?_, ?_, ?_, ?_, ?_, ?_⟩ <;> intros <;> constructor <;> intro h <;>
    simp [PdhAddCounter, PdhOpenQuery, PdhCloseQuery, PdhCollectQueryData,
      PdhGetFormattedCounterValue, PdhEnumObjectItems, PdhRemoveCounter,
      PdhLookupPerfNameByIndex, PdhMakeCounterPath, PdhExpandWildCardPath, hi, h, assert,
      bind, Except.bind, pure, Except.pure]

theorem initialize_count {W : Type} (svc : Service W) (m : Machine W) :
    (initialize_ svc m).statics._pdh_reference_count = m.statics._pdh_reference_count := by
  unfold initialize_
  simp only []
  split <;> simp [getProc]

/-- Whatever path `PdhAttach` takes, a call that returns has raised the count by one. -/
theorem PdhAttach_count {W : Type} (fuel : Nat) (svc : Service W) (m m1 : Machine W) (r : Bool)
    (h : PdhAttach fuel svc m = some (r, m1)) :
    m1.statics._pdh_reference_count = wrapLONG (m.statics._pdh_reference_count + 1) := by
  unfold PdhAttach at h
  simp only [InterlockedExchangeAdd] at h
  split_ifs at h with hi h0
  · simp only [Option.some.injEq, Prod.mk.injEq] at h
    rw [← h.2]
  · split at h
    · exact absurd h (by simp)
    · split at h
      · exact absurd h (by simp)
      · simp only [Option.some.injEq, Prod.mk.injEq] at h
        rw [← h.2]
        exact initialize_count svc _
  · split at h
    · exact absurd h (by simp)
    · split at h
      · exact absurd h (by simp)
      · simp only [Option.some.injEq, Prod.mk.injEq] at h
        rw [← h.2]

theorem attaches_add_detaches (calls : List Call) :
    attaches calls + detaches calls = calls.length := by
  induction calls with
  | nil => rfl
  | cons c cs ih =>
    cases c <;> simp [attaches, detaches] at ih ⊢ <;> omega

theorem PdhAttach_clean_fail_trace {W : Type} (fuel : Nat) (svc : Service W) (m : Machine W)
    (hm : Clean m.statics) (hl : (svc.load_Windows_dll m.world "pdh.dll").1 = 0) :
    ∃ m1, PdhAttach (fuel + 1) svc m = some (false, m1) ∧ Clean m1.statics
      ∧ m1.trace = m.trace ++ [Event.load_Windows_dll "pdh.dll"] :=
  ⟨_, PdhAttach_clean_fail fuel svc m hm hl, hm, rfl⟩

theorem run_attach_loaded_trace {W : Type} (fuel : Nat) (svc : Service W) (n : Nat)
    (m : Machine W) (hm : Loaded m.statics) :
    ∃ rets m1, run fuel svc (List.replicate n Call.attach) m = some (rets, m1)
      ∧ Loaded m1.statics ∧ m1.trace = m.trace ∧ m1.statics._hModule = m.statics._hModule :=
  ⟨_, _, run_attach_loaded fuel svc n m hm.1, hm, rfl, rfl⟩

/-- Attaches from an unbound binding: either every load failed, or after `j` failed loads one
succeeded and the later attaches took the fast path. -/
theorem run_attach_clean {W : Type} (fuel : Nat) (svc : Service W) (n : Nat) (m : Machine W)
    (hm : Clean m.statics) :
    ∃ rets m1, run (fuel + 1) svc (List.replicate n Call.attach) m = some (rets, m1)
      ∧ ((Clean m1.statics
            ∧ m1.trace = m.trace ++ List.replicate n (Event.load_Windows_dll "pdh.dll"))
        ∨ (∃ j, j < n ∧ Loaded m1.statics
            ∧ m1.trace = m.trace ++ List.replicate j (Event.load_Windows_dll "pdh.dll")
                ++ bindCalls m1.statics._hModule)) := by
  induction n generalizing m with
  | zero => exact ⟨[], m, rfl, Or.inl ⟨hm, by simp⟩⟩
  | succ n ih =>
    by_cases hl : (svc.load_Windows_dll m.world "pdh.dll").1 = 0
    · obtain ⟨m1, h1, h2, h3⟩ := PdhAttach_clean_fail_trace fuel svc m hm hl
      obtain ⟨rets, m2, k1, k2⟩ := ih m1 h2
      refine ⟨false :: rets, m2, run_cons _ _ _ _ _ _ _ _ _ h1 k1, ?_⟩
      rcases k2 with ⟨c, t⟩ | ⟨j, hj, c, t⟩
      · left
        exact ⟨c, by rw [t, h3, List.replicate_succ]; simp⟩
      · right
        exact ⟨j + 1, by omega, c, by rw [t, h3, List.replicate_succ]; simp⟩
    · obtain ⟨m1, h1, h2, h3, -, -, -, h7⟩ := PdhAttach_clean_ok fuel svc m hm hl
      obtain ⟨rets, m2, k1, k2, k3, k4⟩ := run_attach_loaded_trace (fuel + 1) svc n m1 h2
      refine ⟨_ :: rets, m2, run_cons _ _ _ _ _ _ _ _ _ h1 k1, Or.inr ⟨0, by omega, k2, ?_⟩⟩
      rw [k3, k4, h7, h3]
      simp [bindCalls]

theorem run_detach_clean {W : Type} (fuel : Nat) (svc : Service W) (n : Nat) (m : Machine W)
    (hm : Clean m.statics) :
    ∃ rets m1, run fuel svc (List.replicate n Call.detach) m = some (rets, m1)
      ∧ Clean m1.statics ∧ m1.trace = m.trace := by
  induction n generalizing m with
  | zero => exact ⟨[], m, rfl, hm, rfl⟩
  | succ n ih =>
    obtain ⟨m1, h1, h2, h3⟩ := PdhDetach_clean svc m hm
    obtain ⟨rets, m2, k1, k2, k3⟩ := ih m1 h2
    refine ⟨false :: rets, m2, run_cons _ _ _ _ _ _ _ _ _ ?_ k1, k2, by rw [k3, h3]⟩
    simp [step, h1]

/-- Detaches that release every reference of a bound module: exactly one unload call, made by
the last of them. -/
theorem run_detach_loaded {W : Type} (fuel : Nat) (svc : Service W) (n : Nat) (m : Machine W)
    (hm : Loaded m.statics) (hc : m.statics._pdh_reference_count = (n : Int) + 1)
    (hlong : (n : Int) + 1 < 2147483648) :
    ∃ rets m1, run fuel svc (List.replicate (n + 1) Call.detach) m = some (rets, m1)
      ∧ m1.trace = m.trace ++ [Event.FreeLibrary m.statics._hModule] := by
  have h3 := run_detach_frame fuel svc n m (by omega) (by omega)
  have h4 := PdhDetach_last_loaded svc
    { m with statics := { m.statics with _pdh_reference_count := 1 } } rfl hm
  have e : m.statics._pdh_reference_count - (n : Int) = 1 := by omega
  rw [e] at h3
  have hstep : run fuel svc [Call.detach]
      { m with statics := { m.statics with _pdh_reference_count := 1 } }
      = some ([(PdhDetach svc
          { m with statics := { m.statics with _pdh_reference_count := 1 } }).1],
        (PdhDetach svc { m with statics := { m.statics with _pdh_reference_count := 1 } }).2) := by
    simp [run, step]
  have hrun := run_append _ _ _ _ _ _ _ _ _ h3 hstep
  rw [← List.replicate_succ'] at hrun
  refine ⟨_, _, hrun, ?_⟩
  rw [h4]
  split_ifs <;> rfl

theorem loadCalls_append (s t : List Event) : loadCalls (s ++ t) = loadCalls s + loadCalls t := by
  simp [loadCalls, List.countP_append]

theorem resolveCalls_append (name : String) (s t : List Event) :
    resolveCalls name (s ++ t) = resolveCalls name s + resolveCalls name t := by
  simp [resolveCalls, List.countP_append]

theorem unloadCalls_append (s t : List Event) :
    unloadCalls (s ++ t) = unloadCalls s + unloadCalls t := by
  simp [unloadCalls, List.countP_append]

theorem calls_replicate_load (name : String) (n : Nat) :
    loadCalls (List.replicate n (Event.load_Windows_dll "pdh.dll")) = n
    ∧ resolveCalls name (List.replicate n (Event.load_Windows_dll "pdh.dll")) = 0
    ∧ unloadCalls (List.replicate n (Event.load_Windows_dll "pdh.dll")) = 0 := by
  induction n with
  | zero => simp [loadCalls, resolveCalls, unloadCalls]
  | succ n ih =>
    simp only [List.replicate_succ, loadCalls, resolveCalls, unloadCalls, List.countP_cons] at ih ⊢
    simp [ih]

theorem calls_bindCalls (h : Nat) :
    loadCalls (bindCalls h) = 1
    ∧ (∀ name ∈ symbolNames, resolveCalls name (bindCalls h) = 1)
    ∧ unloadCalls (bindCalls h) = 0 := by
  refine ⟨?_, ?_, ?_⟩
  · simp [loadCalls, bindCalls, symbolNames, List.countP_cons]
  · intro name hn
    simp only [symbolNames, List.mem_cons, List.mem_singleton, List.not_mem_nil, or_false] at hn
    rcases hn with rfl | rfl | rfl | rfl | rfl | rfl | rfl | rfl | rfl | rfl <;>
      simp [resolveCalls, bindCalls, symbolNames, List.countP_cons]
  · simp [unloadCalls, bindCalls, symbolNames, List.countP_cons]

theorem calls_FreeLibrary (name : String) (h : Nat) :
    loadCalls [Event.FreeLibrary h] = 0 ∧ resolveCalls name [Event.FreeLibrary h] = 0
    ∧ unloadCalls [Event.FreeLibrary h] = 1 := by
  simp [loadCalls, resolveCalls, unloadCalls]

/-- A `PdhDetach` that returns false has changed nothing in the statics but the count. -/
theorem PdhDetach_false_statics {W : Type} (svc : Service W) (m : Machine W)
    (h : (PdhDetach svc m).1 = false) :
    (PdhDetach svc m).2.statics = { m.statics with
      _pdh_reference_count := wrapLONG (m.statics._pdh_reference_count - 1) } := by
  unfold PdhDetach at h ⊢
  simp only [InterlockedExchangeAdd] at h ⊢
  split_ifs at h ⊢ with h1 h2 h3
  · simp [h3] at h
  · rfl
  · rfl
  · rfl

/-- `PdhAttach` leaves a non-zero `_initialized` as it is. -/
theorem PdhAttach_initialized_kept {W : Type} (fuel : Nat) (svc : Service W)
    (m m1 : Machine W) (r : Bool) (h : PdhAttach fuel svc m = some (r, m1))
    (hi : m.statics._initialized ≠ 0) :
    m1.statics._initialized = m.statics._initialized := by
  unfold PdhAttach at h
  simp only [InterlockedExchangeAdd] at h
  split_ifs at h with h1
  · simp only [Option.some.injEq, Prod.mk.injEq] at h
    rw [← h.2]
  · split at h
    · exact absurd h (by simp)
    · split at h
      · exact absurd h (by simp)
      · simp only [Option.some.injEq, Prod.mk.injEq] at h
        rw [← h.2]

/-- `PdhAttach` off the fast path with the lock free: each loop takes one iteration. -/
theorem PdhAttach_free_lock {W : Type} (fuel : Nat) (svc : Service W) (m : Machine W)
    (h : m.statics._initialized ≠ 1) (hcs : m.statics._critical_section = 0) :
    PdhAttach (fuel + 1) svc m = some
      (allResolved (if m.statics._initialized = 0 then initialize_ svc (locked m)
          else locked m).statics,
       { (if m.statics._initialized = 0 then initialize_ svc (locked m) else locked m) with
         statics := { (if m.statics._initialized = 0 then initialize_ svc (locked m)
            else locked m).statics with _critical_section := 0 } }) := by
  by_cases h0 : m.statics._initialized = 0
  · rw [PdhAttach_slow fuel svc m h0 hcs]
    simp only [h0, if_true]
  · unfold PdhAttach
    simp only [InterlockedExchangeAdd]
    rw [if_neg h]
    simp only [hcs, acquireLoop_free]
    rw [if_neg h0]
    simp only [releaseLoop_held, if_neg h0]
    simp only [allResolved, locked]

/-- A call that returns keeps the shape of the statics, whatever the fuel. -/
theorem step_inv {W : Type} (fuel : Nat) (svc : Service W) (c : Call) (m m1 : Machine W)
    (r : Bool) (hm : Inv m.statics) (h : step fuel svc c m = some (r, m1)) :
    Inv m1.statics := by
  cases c with
  | detach =>
    simp only [step, Option.some.injEq] at h
    have := PdhDetach_inv svc m hm
    rw [h] at this
    exact this
  | attach =>
    simp only [step] at h
    rcases hm with hc | hl
    · cases fuel with
      | zero =>
        unfold PdhAttach at h
        simp only [InterlockedExchangeAdd, hc.1, acquireLoop] at h
        simp at h
      | succ f =>
        obtain ⟨r2, m2, h2, hinv, -⟩ := PdhAttach_inv f svc m (Or.inl hc)
        rw [h2] at h
        simp only [Option.some.injEq, Prod.mk.injEq] at h
        rw [← h.2]
        exact hinv
    · rw [PdhAttach_fast fuel svc m hl.1] at h
      simp only [Option.some.injEq, Prod.mk.injEq] at h
      rw [← h.2]
      exact Or.inr hl

theorem run_reach_inv {W : Type} (fuel : Nat) (svc : Service W) (calls : List Call)
    (m m1 : Machine W) (rets : List Bool) (hm : Inv m.statics)
    (h : run fuel svc calls m = some (rets, m1)) : Inv m1.statics := by
  induction calls generalizing m rets with
  | nil =>
    simp only [run, Option.some.injEq, Prod.mk.injEq] at h
    rw [← h.2]
    exact hm
  | cons c cs ih =>
    simp only [run] at h
    cases hs : step fuel svc c m with
    | none => simp [hs] at h
    | some x =>
      simp only [hs] at h
      cases hr : run fuel svc cs x.2 with
      | none => simp [hr] at h
      | some y =>
        simp only [hr, Option.some.injEq, Prod.mk.injEq] at h
        have hx := step_inv fuel svc c m x.2 x.1 hm hs
        exact ih x.2 y.1 hx (by rw [hr, ← h.2])

/-- A state reached from the initial state in which `_initialized` is 0 is unbound. -/
theorem clean_of_reached {W : Type} (f : Nat) (svc : Service W) (w : W) (calls : List Call)
    (rets : List Bool) (m : Machine W) (hr : run f svc calls (boot w) = some (rets, m))
    (hi : m.statics._initialized = 0) : Clean m.statics := by
  rcases run_reach_inv f svc calls (boot w) m rets (boot_inv w) hr with hc | hl
  · exact hc
  · rw [hl.1] at hi
    exact absurd hi (by decide)

/-- Detaches none of which finds the count at 1 change the count and nothing else. -/
theorem run_detach_frame_wrap {W : Type} (fuel : Nat) (svc : Service W) (k : Nat)
    (m : Machine W)
    (hc : wrapLONG m.statics._pdh_reference_count = m.statics._pdh_reference_count)
    (hk : ∀ j : Nat, j < k → wrapLONG (m.statics._pdh_reference_count - j) ≠ 1) :
    run fuel svc (List.replicate k Call.detach) m = some (List.replicate k false,
      { m with statics := { m.statics with
          _pdh_reference_count := wrapLONG (m.statics._pdh_reference_count - k) } }) := by
  induction k generalizing m with
  | zero =>
    simp only [List.replicate_zero, run, Nat.cast_zero, sub_zero, hc]
  | succ k ih =>
    have h1 : m.statics._pdh_reference_count ≠ 1 := by
      have := hk 0 (by omega)
      simpa [hc] using this
    simp only [List.replicate_succ, run, step]
    rw [PdhDetach_not_last svc m h1]
    simp only []
    rw [ih _ (by simp only []; unfold wrapLONG; omega)
      (by
        intro j hj
        have := hk (j + 1) (by omega)
        simp only []
        intro h
        apply this
        rw [← h]
        unfold wrapLONG
        push_cast
        omega)]
    simp only [Option.some.injEq, Prod.mk.injEq, true_and]
    congr 2
    unfold wrapLONG
    push_cast
    omega

theorem failedLoads_le {W : Type} (svc : Service W) (n : Nat) (w : W) :
    failedLoads svc n w ≤ n := by
  induction n generalizing w with
  | zero => simp [failedLoads]
  | succ n ih =>
    unfold failedLoads
    split_ifs
    · have := ih (svc.load_Windows_dll w "pdh.dll").2
      omega
    · omega

theorem PdhAttach_clean_fail_world {W : Type} (fuel : Nat) (svc : Service W) (m : Machine W)
    (hm : Clean m.statics) (hl : (svc.load_Windows_dll m.world "pdh.dll").1 = 0) :
    ∃ m1, PdhAttach (fuel + 1) svc m = some (false, m1) ∧ Clean m1.statics
      ∧ m1.trace = m.trace ++ [Event.load_Windows_dll "pdh.dll"]
      ∧ m1.world = (svc.load_Windows_dll m.world "pdh.dll").2 :=
  ⟨_, PdhAttach_clean_fail fuel svc m hm hl, hm, rfl, rfl⟩

/-- Attaches from an unbound binding call load once each until a load succeeds: after
`failedLoads` failed loads the next load binds the module and the later attaches take the
fast path. -/
theorem run_attach_clean_exact {W : Type} (fuel : Nat) (svc : Service W) (n : Nat)
    (m : Machine W) (hm : Clean m.statics) :
    ∃ rets m1, run (fuel + 1) svc (List.replicate n Call.attach) m = some (rets, m1)
      ∧ (failedLoads svc n m.world = n → Clean m1.statics
          ∧ m1.trace = m.trace ++ List.replicate n (Event.load_Windows_dll "pdh.dll"))
      ∧ (failedLoads svc n m.world < n → Loaded m1.statics
          ∧ m1.statics._hModule = (svc.load_Windows_dll
              (worldAfterLoads svc (failedLoads svc n m.world) m.world) "pdh.dll").1
          ∧ m1.trace = m.trace
              ++ List.replicate (failedLoads svc n m.world) (Event.load_Windows_dll "pdh.dll")
              ++ bindCalls m1.statics._hModule) := by
  induction n generalizing m with
  | zero => exact ⟨[], m, rfl, fun _ => ⟨hm, by simp⟩, fun h => absurd h (by simp [failedLoads])⟩
  | succ n ih =>
    by_cases hl : (svc.load_Windows_dll m.world "pdh.dll").1 = 0
    · obtain ⟨m1, h1, h2, h3, h4⟩ := PdhAttach_clean_fail_world fuel svc m hm hl
      obtain ⟨rets, m2, k1, k2, k3⟩ := ih m1 h2
      have hf : failedLoads svc (n + 1) m.world = failedLoads svc n m1.world + 1 := by
        rw [h4]; simp [failedLoads, hl]
      refine ⟨false :: rets, m2, run_cons _ _ _ _ _ _ _ _ _ h1 k1, ?_, ?_⟩
      · intro h
        obtain ⟨c, t⟩ := k2 (by omega)
        exact ⟨c, by rw [t, h3, List.replicate_succ]; simp⟩
      · intro h
        obtain ⟨c, t, u⟩ := k3 (by omega)
        refine ⟨c, ?_, ?_⟩
        · rw [t, hf, h4]; rfl
        · rw [u, h3, hf, List.replicate_succ]; simp
    · obtain ⟨m1, h1, h2, h3, -, -, -, h7⟩ := PdhAttach_clean_ok fuel svc m hm hl
      obtain ⟨rets, m2, k1, k2, k3, k4⟩ := run_attach_loaded_trace (fuel + 1) svc n m1 h2
      have hf : failedLoads svc (n + 1) m.world = 0 := by simp [failedLoads, hl]
      refine ⟨_ :: rets, m2, run_cons _ _ _ _ _ _ _ _ _ h1 k1, ?_, ?_⟩
      · intro h; omega
      · intro _
        refine ⟨k2, ?_, ?_⟩
        · rw [k4, h3, hf]; rfl
        · rw [k3, k4, h7, h3, hf]
          simp [bindCalls]

/-- Detaches that release every reference of a bound module, the count read as a `LONG`:
exactly one unload call, made by the last of them. -/
theorem run_detach_loaded_wrap {W : Type} (fuel : Nat) (svc : Service W) (n : Nat)
    (m : Machine W) (hm : Loaded m.statics)
    (hc : m.statics._pdh_reference_count = wrapLONG ((n : Int) + 1))
    (hlong : n + 1 ≤ 4294967296) :
    ∃ rets m1, run fuel svc (List.replicate (n + 1) Call.detach) m = some (rets, m1)
      ∧ m1.trace = m.trace ++ [Event.FreeLibrary m.statics._hModule] := by
  have h3 := run_detach_frame_wrap fuel svc n m (by rw [hc]; unfold wrapLONG; omega) (by
    intro j hj
    rw [hc]
    unfold wrapLONG
    omega)
  have h4 := PdhDetach_last_loaded svc
    { m with statics := { m.statics with _pdh_reference_count := 1 } } rfl hm
  have e : wrapLONG (m.statics._pdh_reference_count - (n : Int)) = 1 := by
    rw [hc]; unfold wrapLONG; omega
  rw [e] at h3
  have hstep : run fuel svc [Call.detach]
      { m with statics := { m.statics with _pdh_reference_count := 1 } }
      = some ([(PdhDetach svc
          { m with statics := { m.statics with _pdh_reference_count := 1 } }).1],
        (PdhDetach svc { m with statics := { m.statics with _pdh_reference_count := 1 } }).2) := by
    simp [run, step]
  have hrun := run_append _ _ _ _ _ _ _ _ _ h3 hstep
  rw [← List.replicate_succ'] at hrun
  refine ⟨_, _, hrun, ?_⟩
  rw [h4]
  split_ifs <;> rfl

/-- When the count wraps back to 1 before the last detach and the service refuses to unload,
unload is called a second time by the last detach. -/
theorem run_wrapped_refused (n k : Nat) (hn : n = k + 1)
    (hw1 : wrapLONG (1 + (n : Int)) = 1) (hw2 : wrapLONG (0 - (k : Int)) = 1)
    (hk : ∀ j : Nat, j < k → wrapLONG (0 - (j : Int)) ≠ 1) :
    ∃ rets m, run 1 stuckService
        (List.replicate (n + 1) Call.attach ++ List.replicate (n + 1) Call.detach) (boot ())
      = some (rets, m) ∧ loadCalls m.trace = 1 ∧ unloadCalls m.trace = 2 := by
  subst hn
  have h1 : run 1 stuckService [Call.attach] (boot ()) = some ([true], boundMachine) := rfl
  have h2 := run_attach_loaded 1 stuckService (k + 1) boundMachine rfl
  have hcount : (if k + 1 = 0 then boundMachine.statics._pdh_reference_count
      else wrapLONG (boundMachine.statics._pdh_reference_count + ((k + 1 : Nat) : Int))) = 1 := by
    rw [if_neg (by omega)]
    exact hw1
  rw [hcount] at h2
  have h3 : run 1 stuckService [Call.detach] boundMachine = some ([false], refusedMachine) :=
    rfl
  have h4 := run_detach_frame_wrap 1 stuckService k refusedMachine rfl hk
  rw [show wrapLONG (refusedMachine.statics._pdh_reference_count - (k : Int)) = 1 from hw2]
    at h4
  have h5 : run 1 stuckService [Call.detach]
      { refusedMachine with
        statics := { refusedMachine.statics with _pdh_reference_count := 1 } }
      = some ([false],
          { refusedMachine with trace := refusedMachine.trace ++ [Event.FreeLibrary 1] }) :=
    rfl
  have h := run_append _ _ _ _ _ _ _ _ _ h1
    (run_append _ _ _ _ _ _ _ _ _ h2
      (run_append _ _ _ _ _ _ _ _ _ h3 (run_append _ _ _ _ _ _ _ _ _ h4 h5)))
  have hl : [Call.attach] ++ (List.replicate (k + 1) Call.attach
        ++ ([Call.detach] ++ (List.replicate k Call.detach ++ [Call.detach])))
      = List.replicate (k + 1 + 1) Call.attach ++ List.replicate (k + 1 + 1) Call.detach := by
    rw [← List.replicate_succ']
    simp only [List.replicate_succ, List.cons_append, List.nil_append, List.singleton_append]
  rw [hl] at h
  exact ⟨_, _, h, by decide, by decide⟩

/-! ## C1: what `PdhAttach` returns on an initialized binding -/

/-- C1, evaluated at the failing input: the library loads, `PdhAddCounterA` does not resolve,
and `PdhAttach` is called twice. The first call returns false; the second call, made while
`_initialized` is 1, returns true although `_PdhAddCounter` is still empty after it, so not
all ten entry points are non-empty. -/
theorem PdhAttach_true_with_empty_entry_point :
    (run 1 partialService [Call.attach, Call.attach] (boot ())).map
        (fun r => (r.1, allResolved r.2.statics, r.2.statics._PdhAddCounter,
          r.2.statics._initialized))
      = some ([false, true], false, 0, 1) := by
  decide

/-! ## C2: a failed load -/

/-- C2 as stated fails: with a load that returns the empty handle, `_initialized` is still 0
after `PdhAttach`, and a second `PdhAttach`, made while the reference count is 1, calls
load again. -/
theorem failed_load_is_retried :
    (PdhAttach 1 absentService (boot ())).map
        (fun r => (r.1, r.2.statics._initialized, r.2.statics._pdh_reference_count, r.2.trace))
      = some (false, 0, 1, [Event.load_Windows_dll "pdh.dll"])
    ∧ (run 1 absentService [Call.attach, Call.attach] (boot ())).map
        (fun r => (r.1, r.2.statics._initialized, r.2.statics._pdh_reference_count, r.2.trace))
      = some ([false, false], 0, 2,
          [Event.load_Windows_dll "pdh.dll", Event.load_Windows_dll "pdh.dll"]) := by
  decide

/-- C2, amended: when load returns the empty handle during `PdhAttach` on an uninitialized
binding, in a state reached from the initial zero state by `PdhAttach` and `PdhDetach`
calls, `PdhAttach` returns false and leaves all ten entry points empty, the module handle
empty and `_initialized` at 0, having called load once; the next `PdhAttach` calls load
again, as does `PdhAttach` in every reached state with `_initialized` at 0 (a failed load is
not cached). In any state whatever with `_initialized` at 0 and the lock free, `PdhAttach`
calls load, and a failed load leaves the entry points as they were. -/
theorem PdhAttach_failed_load_not_cached {W : Type} (fuel f : Nat) (svc : Service W) (w : W)
    (calls : List Call) (rets : List Bool) (m : Machine W)
    (hr : run f svc calls (boot w) = some (rets, m))
    (hi : m.statics._initialized = 0)
    (hl : (svc.load_Windows_dll m.world "pdh.dll").1 = 0) :
    (∃ m1, PdhAttach (fuel + 1) svc m = some (false, m1)
      ∧ (∀ a ∈ entryPoints m1.statics, a = 0)
      ∧ m1.statics._hModule = 0
      ∧ m1.statics._initialized = 0
      ∧ m1.trace = m.trace ++ [Event.load_Windows_dll "pdh.dll"]
      ∧ (∀ fuel2, ∃ r2 m2, PdhAttach (fuel2 + 1) svc m1 = some (r2, m2)
          ∧ (m1.trace ++ [Event.load_Windows_dll "pdh.dll"]) <+: m2.trace))
    ∧ (∀ (f0 : Nat) (calls0 : List Call) (rets0 : List Bool) (m0 : Machine W),
        run f0 svc calls0 (boot w) = some (rets0, m0) → m0.statics._initialized = 0 →
        ∀ fuel2, ∃ r2 m2, PdhAttach (fuel2 + 1) svc m0 = some (r2, m2)
          ∧ (m0.trace ++ [Event.load_Windows_dll "pdh.dll"]) <+: m2.trace)
    ∧ (∀ (fuel2 : Nat) (m0 : Machine W), m0.statics._initialized = 0 →
        m0.statics._critical_section = 0 →
        (∃ r2 m2, PdhAttach (fuel2 + 1) svc m0 = some (r2, m2)
          ∧ (m0.trace ++ [Event.load_Windows_dll "pdh.dll"]) <+: m2.trace)
        ∧ ((svc.load_Windows_dll m0.world "pdh.dll").1 = 0 →
          ∃ m1, PdhAttach (fuel2 + 1) svc m0 = some (allResolved m0.statics, m1)
            ∧ entryPoints m1.statics = entryPoints m0.statics
            ∧ m1.statics._hModule = 0
            ∧ m1.statics._initialized = 0
            ∧ m1.trace = m0.trace ++ [Event.load_Windows_dll "pdh.dll"])) := by
  have hc := clean_of_reached f svc w calls rets m hr hi
  refine ⟨?_, ?_, ?_⟩
  · obtain ⟨m1, h1, h2, h3⟩ := PdhAttach_clean_fail_trace fuel svc m hc hl
    exact ⟨m1, h1, h2.2.2.2, h2.2.1, h2.1, h3,
      fun fuel2 => PdhAttach_uninitialized_calls_load fuel2 svc m1 h2.1 h2.2.2.1⟩
  · intro f0 calls0 rets0 m0 h0 hi0 fuel2
    have hc0 := clean_of_reached f0 svc w calls0 rets0 m0 h0 hi0
    exact PdhAttach_uninitialized_calls_load fuel2 svc m0 hi0 hc0.2.2.1
  · intro fuel2 m0 hi0 hcs0
    refine ⟨PdhAttach_uninitialized_calls_load fuel2 svc m0 hi0 hcs0, fun hl0 => ?_⟩
    refine ⟨{ statics := { m0.statics with
                _pdh_reference_count := wrapLONG (m0.statics._pdh_reference_count + 1)
                _critical_section := 0
                _hModule := 0 },
              world := (svc.load_Windows_dll m0.world "pdh.dll").2,
              trace := m0.trace ++ [Event.load_Windows_dll "pdh.dll"] },
      ?_, ?_, rfl, hi0, rfl⟩
    · rw [PdhAttach_slow fuel2 svc m0 hi0 hcs0, initialize_fail svc (locked m0) hl0]
      simp only [locked, allResolved]
    · simp [entryPoints]

/-- The amended C2 at the state a machine without the library reaches by one attach: the
second attach returns false, the binding stays unbound, and load is called a second time. -/
theorem PdhAttach_failed_load_not_cached_witness :
    run 1 absentService [Call.attach] (boot ()) = some ([false], failedOnce)
    ∧ failedOnce.statics._initialized = 0
    ∧ (absentService.load_Windows_dll failedOnce.world "pdh.dll").1 = 0
    ∧ ∃ m1, PdhAttach 1 absentService failedOnce = some (false, m1)
      ∧ (∀ a ∈ entryPoints m1.statics, a = 0)
      ∧ m1.statics._hModule = 0
      ∧ m1.statics._initialized = 0
      ∧ m1.trace = failedOnce.trace ++ [Event.load_Windows_dll "pdh.dll"]
      ∧ (∀ fuel2, ∃ r2 m2, PdhAttach (fuel2 + 1) absentService m1 = some (r2, m2)
          ∧ (m1.trace ++ [Event.load_Windows_dll "pdh.dll"]) <+: m2.trace) :=
  ⟨rfl, rfl, rfl,
    (PdhAttach_failed_load_not_cached 0 1 absentService () [Call.attach] [false] failedOnce
      rfl rfl rfl).1⟩

/-! ## C3: what `PdhDetach` returns -/

/-- C3: for every binding state, `PdhDetach` returns true if and only if the reference count
before the decrement was exactly 1, the binding is initialized with a non-empty module
handle, and the unload call on that handle reports success. -/
theorem PdhDetach_true_iff {W : Type} (svc : Service W) (m : Machine W) :
    (PdhDetach svc m).1 = true ↔
      (m.statics._pdh_reference_count = 1 ∧ m.statics._initialized ≠ 0
        ∧ m.statics._hModule ≠ 0
        ∧ (svc.FreeLibrary m.world m.statics._hModule).1 ≠ 0) := by
  unfold PdhDetach
  simp only [InterlockedExchangeAdd]
  split_ifs <;> simp_all

/-! ## C4: `N` attaches, `N` detaches -/

/-- C5 as stated fails: with a load that returns the empty handle, two attaches followed by
two detaches call load twice and never call unload. -/
theorem failed_load_called_per_attach :
    (run 1 absentService (List.replicate 2 Call.attach ++ List.replicate 2 Call.detach)
        (boot ())).map (fun r => (r.2.trace, loadCalls r.2.trace, unloadCalls r.2.trace))
      = some ([Event.load_Windows_dll "pdh.dll", Event.load_Windows_dll "pdh.dll"], 2, 0) := by
  decide

/-- The bound `N <= 2^32` of the amended C5 cannot be dropped: after 2^32 + 1 attaches the
count has wrapped to 1, the first detach calls unload, and when that unload is refused the
last detach finds the count at 1 again and calls unload a second time. -/
theorem refused_unload_called_again :
    ∃ rets m, run 1 stuckService
        (List.replicate (4294967296 + 1) Call.attach
          ++ List.replicate (4294967296 + 1) Call.detach) (boot ())
      = some (rets, m) ∧ loadCalls m.trace = 1 ∧ unloadCalls m.trace = 2 :=
  run_wrapped_refused 4294967296 4294967295 (by decide) (by decide) (by decide)
    (by intro j hj; unfold wrapLONG; omega)

/-- C5, amended: for every `N` with `1 <= N <= 2^32` and every load/resolve/unload service,
`N` attaches followed by `N` detaches from the initial zero state call load once per
`PdhAttach` until a load returns a non-empty handle and never after it. With `j` the number
of loads that fail before one succeeds (`failedLoads`): when all `N` loads fail (`j = N`) the
calls are `N` loads, no resolve and no unload; when a load succeeds (`j < N`) the calls are
`j + 1` loads, then one resolve of each of the ten symbols, then one unload. So there are at
least one and at most `N` loads, at most one resolve of each symbol and at most one unload,
and exactly one of each when the first load succeeds. -/
theorem one_load_and_unload_per_cycle {W : Type} (fuel : Nat) (svc : Service W) (w : W)
    (N : Nat) (hN : 1 ≤ N) (hlong : N ≤ 4294967296) :
    ∃ rets m, run (fuel + 1) svc
          (List.replicate N Call.attach ++ List.replicate N Call.detach) (boot w)
        = some (rets, m)
      ∧ (failedLoads svc N w = N →
          m.trace = List.replicate N (Event.load_Windows_dll "pdh.dll")
          ∧ loadCalls m.trace = N
          ∧ (∀ name ∈ symbolNames, resolveCalls name m.trace = 0)
          ∧ unloadCalls m.trace = 0)
      ∧ (failedLoads svc N w < N →
          m.trace = List.replicate (failedLoads svc N w) (Event.load_Windows_dll "pdh.dll")
            ++ bindCalls
                (svc.load_Windows_dll (worldAfterLoads svc (failedLoads svc N w) w) "pdh.dll").1
            ++ [Event.FreeLibrary
                (svc.load_Windows_dll (worldAfterLoads svc (failedLoads svc N w) w) "pdh.dll").1]
          ∧ loadCalls m.trace = failedLoads svc N w + 1
          ∧ (∀ name ∈ symbolNames, resolveCalls name m.trace = 1)
          ∧ unloadCalls m.trace = 1)
      ∧ failedLoads svc N w ≤ N
      ∧ 1 ≤ loadCalls m.trace ∧ loadCalls m.trace ≤ N
      ∧ (∀ name ∈ symbolNames, resolveCalls name m.trace ≤ 1)
      ∧ unloadCalls m.trace ≤ 1
      ∧ ((svc.load_Windows_dll w "pdh.dll").1 ≠ 0 →
          m.trace = Event.load_Windows_dll "pdh.dll" ::
            symbolNames.map (Event.GetProcAddress (svc.load_Windows_dll w "pdh.dll").1)
              ++ [Event.FreeLibrary (svc.load_Windows_dll w "pdh.dll").1]
          ∧ loadCalls m.trace = 1
          ∧ (∀ name ∈ symbolNames, resolveCalls name m.trace = 1)
          ∧ unloadCalls m.trace = 1) := by
  obtain ⟨retsA, mA, hA, hfail, hok⟩ := run_attach_clean_exact fuel svc N (boot w) (boot_clean w)
  have hcount : mA.statics._pdh_reference_count = wrapLONG N := by
    obtain ⟨r1, m1, h1, -, hc⟩ := run_attach_phase fuel svc w N
    rw [hA] at h1
    simp only [Option.some.injEq, Prod.mk.injEq] at h1
    rw [h1.2, hc]
  have hboot : (boot w).trace = [] := rfl
  have hworld : (boot w).world = w := rfl
  rw [hboot, hworld] at hfail hok
  have hle := failedLoads_le svc N w
  -- exact traces, by cases on whether a load succeeded
  have hmain : ∃ rets m, run (fuel + 1) svc
        (List.replicate N Call.attach ++ List.replicate N Call.detach) (boot w)
      = some (rets, m)
      ∧ (failedLoads svc N w = N →
          m.trace = List.replicate N (Event.load_Windows_dll "pdh.dll"))
      ∧ (failedLoads svc N w < N →
          m.trace = List.replicate (failedLoads svc N w) (Event.load_Windows_dll "pdh.dll")
            ++ bindCalls
                (svc.load_Windows_dll (worldAfterLoads svc (failedLoads svc N w) w) "pdh.dll").1
            ++ [Event.FreeLibrary
                (svc.load_Windows_dll
                  (worldAfterLoads svc (failedLoads svc N w) w) "pdh.dll").1]) := by
    rcases Nat.lt_or_ge (failedLoads svc N w) N with hlt | hge
    · obtain ⟨hl, hh, ht⟩ := hok hlt
      obtain ⟨n, rfl⟩ : ∃ n, N = n + 1 := ⟨N - 1, by omega⟩
      obtain ⟨retsD, mD, hD, hDt⟩ := run_detach_loaded_wrap (fuel + 1) svc n mA hl
        (by rw [hcount]; push_cast; rfl) hlong
      refine ⟨_, mD, run_append _ _ _ _ _ _ _ _ _ hA hD, fun h => absurd h (by omega), fun _ => ?_⟩
      rw [hDt, ht, hh, List.nil_append]
    · have heq : failedLoads svc N w = N := by omega
      obtain ⟨hc, ht⟩ := hfail heq
      obtain ⟨retsD, mD, hD, -, hDt⟩ := run_detach_clean (fuel + 1) svc N mA hc
      refine ⟨_, mD, run_append _ _ _ _ _ _ _ _ _ hA hD, fun _ => ?_, fun h => absurd h (by omega)⟩
      rw [hDt, ht, List.nil_append]
  obtain ⟨rets, m, hrun, t1, t2⟩ := hmain
  have c1 : failedLoads svc N w = N →
      loadCalls m.trace = N ∧ (∀ name ∈ symbolNames, resolveCalls name m.trace = 0)
        ∧ unloadCalls m.trace = 0 := by
    intro h
    rw [t1 h]
    exact ⟨(calls_replicate_load "" N).1, fun name _ => (calls_replicate_load name N).2.1,
      (calls_replicate_load "" N).2.2⟩
  have c2 : failedLoads svc N w < N →
      loadCalls m.trace = failedLoads svc N w + 1
        ∧ (∀ name ∈ symbolNames, resolveCalls name m.trace = 1)
        ∧ unloadCalls m.trace = 1 := by
    intro h
    rw [t2 h]
    obtain ⟨b1, b2, b3⟩ := calls_bindCalls
      (svc.load_Windows_dll (worldAfterLoads svc (failedLoads svc N w) w) "pdh.dll").1
    refine ⟨?_, ?_, ?_⟩
    · rw [loadCalls_append, loadCalls_append, b1, (calls_replicate_load "" _).1,
        (calls_FreeLibrary "" _).1]
    · intro name hn
      rw [resolveCalls_append, resolveCalls_append, b2 name hn,
        (calls_replicate_load name _).2.1, (calls_FreeLibrary name _).2.1]
    · rw [unloadCalls_append, unloadCalls_append, b3, (calls_replicate_load "" _).2.2,
        (calls_FreeLibrary "" _).2.2]
  have hcases : failedLoads svc N w = N ∨ failedLoads svc N w < N := by omega
  refine ⟨rets, m, hrun, fun h => ⟨t1 h, c1 h⟩, fun h => ⟨t2 h, c2 h⟩, hle, ?_, ?_, ?_, ?_, ?_⟩
  · rcases hcases with h | h
    · rw [(c1 h).1]; exact hN
    · rw [(c2 h).1]; omega
  · rcases hcases with h | h
    · rw [(c1 h).1]
    · rw [(c2 h).1]; omega
  · intro name hn
    rcases hcases with h | h
    · rw [(c1 h).2.1 name hn]; omega
    · rw [(c2 h).2.1 name hn]
  · rcases hcases with h | h
    · rw [(c1 h).2.2]; omega
    · rw [(c2 h).2.2]
  · intro hload
    obtain ⟨n, rfl⟩ : ∃ n, N = n + 1 := ⟨N - 1, by omega⟩
    have hz : failedLoads svc (n + 1) w = 0 := by simp [failedLoads, hload]
    have hlt : failedLoads svc (n + 1) w < n + 1 := by omega
    have ht := t2 hlt
    have hc := c2 hlt
    rw [hz] at ht hc
    refine ⟨?_, hc.1, hc.2.1, hc.2.2⟩
    rw [ht]
    simp [bindCalls, worldAfterLoads]

/-- The amended C5 at `N = 5` on a machine whose first two loads fail: three calls to load,
then the ten resolves, then one unload. -/
theorem one_load_and_unload_per_cycle_witness :
    1 ≤ 5 ∧ 5 ≤ 4294967296 ∧ failedLoads flakyService 5 0 = 2
    ∧ ∃ rets m, run 1 flakyService
          (List.replicate 5 Call.attach ++ List.replicate 5 Call.detach) (boot 0)
        = some (rets, m)
      ∧ (failedLoads flakyService 5 0 = 5 →
          m.trace = List.replicate 5 (Event.load_Windows_dll "pdh.dll")
          ∧ loadCalls m.trace = 5
          ∧ (∀ name ∈ symbolNames, resolveCalls name m.trace = 0)
          ∧ unloadCalls m.trace = 0)
      ∧ (failedLoads flakyService 5 0 < 5 →
          m.trace = List.replicate (failedLoads flakyService 5 0)
              (Event.load_Windows_dll "pdh.dll")
            ++ bindCalls (flakyService.load_Windows_dll
                (worldAfterLoads flakyService (failedLoads flakyService 5 0) 0) "pdh.dll").1
            ++ [Event.FreeLibrary (flakyService.load_Windows_dll
                (worldAfterLoads flakyService (failedLoads flakyService 5 0) 0) "pdh.dll").1]
          ∧ loadCalls m.trace = failedLoads flakyService 5 0 + 1
          ∧ (∀ name ∈ symbolNames, resolveCalls name m.trace = 1)
          ∧ unloadCalls m.trace = 1)
      ∧ failedLoads flakyService 5 0 ≤ 5
      ∧ 1 ≤ loadCalls m.trace ∧ loadCalls m.trace ≤ 5
      ∧ (∀ name ∈ symbolNames, resolveCalls name m.trace ≤ 1)
      ∧ unloadCalls m.trace ≤ 1
      ∧ ((flakyService.load_Windows_dll 0 "pdh.dll").1 ≠ 0 →
          m.trace = Event.load_Windows_dll "pdh.dll" ::
            symbolNames.map
                (Event.GetProcAddress (flakyService.load_Windows_dll 0 "pdh.dll").1)
              ++ [Event.FreeLibrary (flakyService.load_Windows_dll 0 "pdh.dll").1]
          ∧ loadCalls m.trace = 1
          ∧ (∀ name ∈ symbolNames, resolveCalls name m.trace = 1)
          ∧ unloadCalls m.trace = 1) :=
  ⟨by decide, by decide, by decide,
    one_load_and_unload_per_cycle 0 flakyService 0 5 (by decide) (by decide)⟩

/-! ## C6: frame of the fast path -/

/-- C6: `PdhAttach` on a binding whose `_initialized` is 1 returns true at once, makes no call
to the service (world and trace unchanged) and changes nothing in the statics except the
reference count, which `InterlockedExchangeAdd` raises by one (in `LONG` arithmetic: plain
`+ 1` below the top of the range). -/
theorem PdhAttach_initialized_only_counts {W : Type} (fuel : Nat) (svc : Service W)
    (m : Machine W) (h : m.statics._initialized = 1) :
    ∃ m1, PdhAttach fuel svc m = some (true, m1)
      ∧ m1.trace = m.trace ∧ m1.world = m.world
      ∧ m1.statics = { m.statics with
          _pdh_reference_count := wrapLONG (m.statics._pdh_reference_count + 1) }
      ∧ m1.statics._hModule = m.statics._hModule
      ∧ entryPoints m1.statics = entryPoints m.statics
      ∧ m1.statics._initialized = m.statics._initialized
      ∧ m1.statics._critical_section = m.statics._critical_section
      ∧ (-2147483648 ≤ m.statics._pdh_reference_count
          → m.statics._pdh_reference_count < 2147483647
          → m1.statics._pdh_reference_count = m.statics._pdh_reference_count + 1) := by
  refine ⟨_, PdhAttach_fast fuel svc m h, rfl, rfl, rfl, rfl, rfl, rfl, rfl, ?_⟩
  intro h1 h2
  exact wrapLONG_of_range _ (by omega) (by omega)

/-- C6 at the machine one full attach leaves behind. -/
theorem PdhAttach_initialized_only_counts_witness :
    boundMachine.statics._initialized = 1
    ∧ ∃ m1, PdhAttach 0 fullService boundMachine = some (true, m1)
      ∧ m1.trace = boundMachine.trace ∧ m1.world = boundMachine.world
      ∧ m1.statics = { boundMachine.statics with
          _pdh_reference_count := wrapLONG (boundMachine.statics._pdh_reference_count + 1) }
      ∧ m1.statics._hModule = boundMachine.statics._hModule
      ∧ entryPoints m1.statics = entryPoints boundMachine.statics
      ∧ m1.statics._initialized = boundMachine.statics._initialized
      ∧ m1.statics._critical_section = boundMachine.statics._critical_section
      ∧ (-2147483648 ≤ boundMachine.statics._pdh_reference_count
          → boundMachine.statics._pdh_reference_count < 2147483647
          → m1.statics._pdh_reference_count
              = boundMachine.statics._pdh_reference_count + 1) :=
  ⟨rfl, PdhAttach_initialized_only_counts 0 fullService boundMachine rfl⟩

/-! ## C7: the library cannot be loaded -/

/-- C7: with a load service that always returns the empty handle, in any run from the
initial zero state every `PdhAttach` (every call, in fact) returns false and unload is never
called; in the state reached, `PdhDetach` returns false without calling unload (so also on
the sole outstanding reference), and each of the ten proxy operations fails its assertion
because `_initialized` is 0 and its entry point is empty. -/
theorem absent_library_is_unavailable {W : Type} (fuel : Nat) (svc : Service W) (w : W)
    (hload : ∀ w name, (svc.load_Windows_dll w name).1 = 0) (calls : List Call) :
    ∃ m, run (fuel + 1) svc calls (boot w) = some (List.replicate calls.length false, m)
      ∧ unloadCalls m.trace = 0
      ∧ ((PdhDetach svc m).1 = false ∧ (PdhDetach svc m).2.trace = m.trace)
      ∧ m.statics._initialized = 0
      ∧ (∀ a ∈ entryPoints m.statics, a = 0)
      ∧ (∀ a b c d, PdhAddCounter svc m a b c d = Except.error assertMessage)
      ∧ (∀ a b c, PdhOpenQuery svc m a b c = Except.error assertMessage)
      ∧ (∀ a, PdhCloseQuery svc m a = Except.error assertMessage)
      ∧ (∀ a, PdhCollectQueryData svc m a = Except.error assertMessage)
      ∧ (∀ a b c d, PdhGetFormattedCounterValue svc m a b c d = Except.error assertMessage)
      ∧ (∀ a b c d e f g h i,
          PdhEnumObjectItems svc m a b c d e f g h i = Except.error assertMessage)
      ∧ (∀ a, PdhRemoveCounter svc m a = Except.error assertMessage)
      ∧ (∀ a b c d, PdhLookupPerfNameByIndex svc m a b c d = Except.error assertMessage)
      ∧ (∀ a b c d, PdhMakeCounterPath svc m a b c d = Except.error assertMessage)
      ∧ (∀ a b c d e, PdhExpandWildCardPath svc m a b c d e = Except.error assertMessage) := by
  obtain ⟨m, h1, h2, h3⟩ := run_absent fuel svc hload calls (boot w) (boot_clean w)
  obtain ⟨m1, d1, -, d3⟩ := PdhDetach_clean svc m h2
  have hi := h2.1
  refine ⟨m, h1, by rw [h3]; rfl, ⟨by rw [d1], by rw [d1]; exact d3⟩, hi, h2.2.2.2,
    ?_, ?_, ?_, ?_, ?_, ?_, ?_, ?_, ?_, ?_⟩ <;> intros <;>
    simp [PdhAddCounter, PdhOpenQuery, PdhCloseQuery, PdhCollectQueryData,
      PdhGetFormattedCounterValue, PdhEnumObjectItems, PdhRemoveCounter,
      PdhLookupPerfNameByIndex, PdhMakeCounterPath, PdhExpandWildCardPath, hi, assert,
      bind, Except.bind]

/-- C7 on a machine without the library, for the run attach, detach, attach. -/
theorem absent_library_is_unavailable_witness :
    (∀ (w : Unit) (name : String), (absentService.load_Windows_dll w name).1 = 0)
    ∧ ∃ m, run 1 absentService [Call.attach, Call.detach, Call.attach] (boot ())
        = some (List.replicate [Call.attach, Call.detach, Call.attach].length false, m)
      ∧ unloadCalls m.trace = 0
      ∧ ((PdhDetach absentService m).1 = false ∧ (PdhDetach absentService m).2.trace = m.trace)
      ∧ m.statics._initialized = 0
      ∧ (∀ a ∈ entryPoints m.statics, a = 0)
      ∧ (∀ a b c d, PdhAddCounter absentService m a b c d = Except.error assertMessage)
      ∧ (∀ a b c, PdhOpenQuery absentService m a b c = Except.error assertMessage)
      ∧ (∀ a, PdhCloseQuery absentService m a = Except.error assertMessage)
      ∧ (∀ a, PdhCollectQueryData absentService m a = Except.error assertMessage)
      ∧ (∀ a b c d,
          PdhGetFormattedCounterValue absentService m a b c d = Except.error assertMessage)
      ∧ (∀ a b c d e f g h i,
          PdhEnumObjectItems absentService m a b c d e f g h i = Except.error assertMessage)
      ∧ (∀ a, PdhRemoveCounter absentService m a = Except.error assertMessage)
      ∧ (∀ a b c d,
          PdhLookupPerfNameByIndex absentService m a b c d = Except.error assertMessage)
      ∧ (∀ a b c d, PdhMakeCounterPath absentService m a b c d = Except.error assertMessage)
      ∧ (∀ a b c d e,
          PdhExpandWildCardPath absentService m a b c d e = Except.error assertMessage) :=
  ⟨fun _ _ => rfl,
    absent_library_is_unavailable 0 absentService () (fun _ _ => rfl)
      [Call.attach, Call.detach, Call.attach]⟩

/-! ## C8: partial resolution -/

/-- C8: if, on `PdhAttach` from the initial zero state, load succeeds but resolve returns
the empty address for at least one of the ten symbols, then `PdhAttach` returns false, the
binding is initialized, every entry point holds what resolve returned for its symbol, and
each proxy forwards to its entry point when that is non-empty and fails its assertion when
it is empty. -/
theorem partial_resolution_attach_false {W : Type} (fuel : Nat) (svc : Service W) (w : W)
    (hload : (svc.load_Windows_dll w "pdh.dll").1 ≠ 0)
    (hmiss : 0 ∈ resolved svc (svc.load_Windows_dll w "pdh.dll").2
      (svc.load_Windows_dll w "pdh.dll").1 symbolNames) :
    ∃ m, PdhAttach (fuel + 1) svc (boot w) = some (false, m)
      ∧ m.statics._initialized = 1
      ∧ m.statics._hModule = (svc.load_Windows_dll w "pdh.dll").1
      ∧ entryPoints m.statics = resolved svc (svc.load_Windows_dll w "pdh.dll").2
          (svc.load_Windows_dll w "pdh.dll").1 symbolNames
      ∧ (∀ a b c d, Served svc m m.statics._PdhAddCounter [a, b, c, d]
          (PdhAddCounter svc m a b c d))
      ∧ (∀ a b c, Served svc m m.statics._PdhOpenQuery [a, b, c] (PdhOpenQuery svc m a b c))
      ∧ (∀ a, Served svc m m.statics._PdhCloseQuery [a] (PdhCloseQuery svc m a))
      ∧ (∀ a, Served svc m m.statics._PdhCollectQueryData [a] (PdhCollectQueryData svc m a))
      ∧ (∀ a b c d, Served svc m m.statics._PdhGetFormattedCounterValue [a, b, c, d]
          (PdhGetFormattedCounterValue svc m a b c d))
      ∧ (∀ a b c d e f g h i, Served svc m m.statics._PdhEnumObjectItems
          [a, b, c, d, e, f, g, h, i] (PdhEnumObjectItems svc m a b c d e f g h i))
      ∧ (∀ a, Served svc m m.statics._PdhRemoveCounter [a] (PdhRemoveCounter svc m a))
      ∧ (∀ a b c d, Served svc m m.statics._PdhLookupPerfNameByIndex [a, b, c, d]
          (PdhLookupPerfNameByIndex svc m a b c d))
      ∧ (∀ a b c d, Served svc m m.statics._PdhMakeCounterPath [a, b, c, d]
          (PdhMakeCounterPath svc m a b c d))
      ∧ (∀ a b c d e, Served svc m m.statics._PdhExpandWildCardPath [a, b, c, d, e]
          (PdhExpandWildCardPath svc m a b c d e)) := by
  obtain ⟨m, h1, hL, hH, -, hE, -, -⟩ :=
    PdhAttach_clean_ok fuel svc (boot w) (boot_clean w) hload
  have hE2 : entryPoints m.statics = resolved svc (svc.load_Windows_dll w "pdh.dll").2
      (svc.load_Windows_dll w "pdh.dll").1 symbolNames := hE
  have hf : allResolved m.statics = false :=
    allResolved_eq_false_of_mem _ (by rw [hE2]; exact hmiss)
  rw [hf] at h1
  exact ⟨m, h1, hL.1, hH, hE2, served_of_initialized svc m hL.1⟩

/-- C8 on a machine whose library lacks `PdhAddCounterA`. -/
theorem partial_resolution_attach_false_witness :
    (partialService.load_Windows_dll () "pdh.dll").1 ≠ 0
    ∧ 0 ∈ resolved partialService (partialService.load_Windows_dll () "pdh.dll").2
        (partialService.load_Windows_dll () "pdh.dll").1 symbolNames
    ∧ ∃ m, PdhAttach 1 partialService (boot ()) = some (false, m)
      ∧ m.statics._initialized = 1
      ∧ m.statics._hModule = (partialService.load_Windows_dll () "pdh.dll").1
      ∧ entryPoints m.statics = resolved partialService
          (partialService.load_Windows_dll () "pdh.dll").2
          (partialService.load_Windows_dll () "pdh.dll").1 symbolNames
      ∧ (∀ a b c d, Served partialService m m.statics._PdhAddCounter [a, b, c, d]
          (PdhAddCounter partialService m a b c d))
      ∧ (∀ a b c, Served partialService m m.statics._PdhOpenQuery [a, b, c]
          (PdhOpenQuery partialService m a b c))
      ∧ (∀ a, Served partialService m m.statics._PdhCloseQuery [a]
          (PdhCloseQuery partialService m a))
      ∧ (∀ a, Served partialService m m.statics._PdhCollectQueryData [a]
          (PdhCollectQueryData partialService m a))
      ∧ (∀ a b c d, Served partialService m m.statics._PdhGetFormattedCounterValue
          [a, b, c, d] (PdhGetFormattedCounterValue partialService m a b c d))
      ∧ (∀ a b c d e f g h i, Served partialService m m.statics._PdhEnumObjectItems
          [a, b, c, d, e, f, g, h, i] (PdhEnumObjectItems partialService m a b c d e f g h i))
      ∧ (∀ a, Served partialService m m.statics._PdhRemoveCounter [a]
          (PdhRemoveCounter partialService m a))
      ∧ (∀ a b c d, Served partialService m m.statics._PdhLookupPerfNameByIndex [a, b, c, d]
          (PdhLookupPerfNameByIndex partialService m a b c d))
      ∧ (∀ a b c d, Served partialService m m.statics._PdhMakeCounterPath [a, b, c, d]
          (PdhMakeCounterPath partialService m a b c d))
      ∧ (∀ a b c d e, Served partialService m m.statics._PdhExpandWildCardPath
          [a, b, c, d, e] (PdhExpandWildCardPath partialService m a b c d e)) :=
  ⟨by decide, by decide,
    partial_resolution_attach_false 0 partialService () (by decide) (by decide)⟩

/-! ## C9: the reference count -/

/-- C9 as stated fails at the end of the `LONG` range: after 2^31 `PdhAttach` calls from the
initial state (no `PdhDetach`, so every prefix has at least as many attaches as detaches) the
reference count is -2^31, neither the number of attaches nor non-negative; the call made at
count 2^31 - 1 does not raise the count by one. -/
theorem reference_count_wraps :
    (run 1 absentService (List.replicate 2147483648 Call.attach) (boot ())).map
        (fun r => r.2.statics._pdh_reference_count) = some (-2147483648)
    ∧ (PdhAttach 1 absentService
        { statics := { _pdh_reference_count := 2147483647 }, world := (), trace := [] }).map
        (fun r => r.2.statics._pdh_reference_count) = some (-2147483648) := by
  constructor
  · obtain ⟨rets, m, h, -, hc⟩ := run_attach_phase 0 absentService () 2147483648
    rw [h, Option.map_some', hc]
    rfl
  · decide

/-- C9, amended: each `PdhAttach` adds one to the reference count and each `PdhDetach`
subtracts one, in 32-bit `LONG` arithmetic, whatever load, resolve and unload answer, so
after any run from the initial state the count is the number of attaches minus the number
of detaches, reduced to the `LONG` range; hence for every sequence of fewer than 2^31 calls
from the initial state in which each prefix contains at least as many attaches as detaches,
the count after each step equals the number of attaches minus the number of detaches and is
non-negative, and it is 0 after a balanced sequence. -/
theorem reference_count_tracks_calls {W : Type} (fuel : Nat) (svc : Service W) (w : W)
    (calls : List Call) (hlen : calls.length < 2147483648)
    (hpre : ∀ k, detaches (calls.take k) ≤ attaches (calls.take k)) :
    (∀ (f : Nat) (m m1 : Machine W) (r : Bool), PdhAttach f svc m = some (r, m1) →
        m1.statics._pdh_reference_count = wrapLONG (m.statics._pdh_reference_count + 1))
    ∧ (∀ m : Machine W, (PdhDetach svc m).2.statics._pdh_reference_count
        = wrapLONG (m.statics._pdh_reference_count - 1))
    ∧ (∀ cs : List Call, ∃ rets m, run (fuel + 1) svc cs (boot w) = some (rets, m)
        ∧ m.statics._pdh_reference_count
            = wrapLONG ((attaches cs : Int) - (detaches cs : Int)))
    ∧ (∀ k, ∃ rets m, run (fuel + 1) svc (calls.take k) (boot w) = some (rets, m)
        ∧ m.statics._pdh_reference_count
            = (attaches (calls.take k) : Int) - (detaches (calls.take k) : Int)
        ∧ 0 ≤ m.statics._pdh_reference_count)
    ∧ (attaches calls = detaches calls →
        ∃ rets m, run (fuel + 1) svc calls (boot w) = some (rets, m)
          ∧ m.statics._pdh_reference_count = 0) := by
  have key : ∀ k, ∃ rets m, run (fuel + 1) svc (calls.take k) (boot w) = some (rets, m)
      ∧ m.statics._pdh_reference_count
          = (attaches (calls.take k) : Int) - (detaches (calls.take k) : Int)
      ∧ 0 ≤ m.statics._pdh_reference_count := by
    intro k
    obtain ⟨rets, m, h1, -, -, h4⟩ :=
      run_inv fuel svc (calls.take k) (boot w) (boot_inv w) wrapLONG_zero
    have hk := hpre k
    have hsum := attaches_add_detaches (calls.take k)
    have hl : (calls.take k).length ≤ calls.length := by
      rw [List.length_take]; exact Nat.min_le_right _ _
    have h0 : (boot w).statics._pdh_reference_count = 0 := rfl
    rw [h0, wrapLONG_of_range _ (by omega) (by omega)] at h4
    exact ⟨rets, m, h1, by rw [h4]; ring, by rw [h4]; omega⟩
  have anyrun : ∀ cs : List Call, ∃ rets m, run (fuel + 1) svc cs (boot w) = some (rets, m)
      ∧ m.statics._pdh_reference_count
          = wrapLONG ((attaches cs : Int) - (detaches cs : Int)) := by
    intro cs
    obtain ⟨rets, m, h1, -, -, h4⟩ := run_inv fuel svc cs (boot w) (boot_inv w) wrapLONG_zero
    have h0 : (boot w).statics._pdh_reference_count = 0 := rfl
    rw [h0, zero_add] at h4
    exact ⟨rets, m, h1, h4⟩
  refine ⟨fun f m m1 r h => PdhAttach_count f svc m m1 r h, fun m => PdhDetach_count svc m,
    anyrun, key, ?_⟩
  intro hbal
  obtain ⟨rets, m, h1, h2, -⟩ := key calls.length
  rw [List.take_length] at h1 h2
  exact ⟨rets, m, h1, by rw [h2, hbal]; ring⟩

/-- The amended C9 for the run attach, attach, detach, detach. -/
theorem reference_count_tracks_calls_witness :
    [Call.attach, Call.attach, Call.detach, Call.detach].length < 2147483648
    ∧ (∀ k, detaches ([Call.attach, Call.attach, Call.detach, Call.detach].take k)
        ≤ attaches ([Call.attach, Call.attach, Call.detach, Call.detach].take k))
    ∧ ((∀ (f : Nat) (m m1 : Machine Unit) (r : Bool),
          PdhAttach f fullService m = some (r, m1) →
          m1.statics._pdh_reference_count = wrapLONG (m.statics._pdh_reference_count + 1))
      ∧ (∀ m : Machine Unit, (PdhDetach fullService m).2.statics._pdh_reference_count
          = wrapLONG (m.statics._pdh_reference_count - 1))
      ∧ (∀ cs : List Call, ∃ rets m, run 1 fullService cs (boot ()) = some (rets, m)
          ∧ m.statics._pdh_reference_count
              = wrapLONG ((attaches cs : Int) - (detaches cs : Int)))
      ∧ (∀ k, ∃ rets m, run 1 fullService
            ([Call.attach, Call.attach, Call.detach, Call.detach].take k) (boot ())
          = some (rets, m)
          ∧ m.statics._pdh_reference_count
              = (attaches ([Call.attach, Call.attach, Call.detach, Call.detach].take k) : Int)
                - (detaches ([Call.attach, Call.attach, Call.detach, Call.detach].take k) : Int)
          ∧ 0 ≤ m.statics._pdh_reference_count)
      ∧ (attaches [Call.attach, Call.attach, Call.detach, Call.detach]
            = detaches [Call.attach, Call.attach, Call.detach, Call.detach] →
          ∃ rets m, run 1 fullService [Call.attach, Call.attach, Call.detach, Call.detach]
              (boot ()) = some (rets, m)
            ∧ m.statics._pdh_reference_count = 0)) := by
  have hpre : ∀ k, detaches ([Call.attach, Call.attach, Call.detach, Call.detach].take k)
      ≤ attaches ([Call.attach, Call.attach, Call.detach, Call.detach].take k) := by
    intro k
    rcases k with _ | _ | _ | _ | _ | k <;> simp [attaches, detaches]
  exact ⟨by decide, hpre,
    reference_count_tracks_calls 0 fullService ()
      [Call.attach, Call.attach, Call.detach, Call.detach] (by decide) hpre⟩

/-! ## C10: the proxy operations -/

/-- C10: each of the ten proxy operations, on all arguments, returns exactly what its stored
entry point returns on the same arguments in the same order and leaves the binding state
unchanged when the binding is initialized and that entry point is non-empty, and fails its
assertion, calling nothing, when the binding is not initialized or that entry point is
empty. -/
theorem proxies_forward_or_assert {W : Type} (svc : Service W) (m : Machine W) :
    (∀ hQuery szFullCounterPath dwUserData phCounter,
        Forwards svc m m.statics._PdhAddCounter
          [hQuery, szFullCounterPath, dwUserData, phCounter]
          (PdhAddCounter svc m hQuery szFullCounterPath dwUserData phCounter))
    ∧ (∀ szDataSource dwUserData phQuery,
        Forwards svc m m.statics._PdhOpenQuery [szDataSource, dwUserData, phQuery]
          (PdhOpenQuery svc m szDataSource dwUserData phQuery))
    ∧ (∀ hQuery, Forwards svc m m.statics._PdhCloseQuery [hQuery]
          (PdhCloseQuery svc m hQuery))
    ∧ (∀ hQuery, Forwards svc m m.statics._PdhCollectQueryData [hQuery]
          (PdhCollectQueryData svc m hQuery))
    ∧ (∀ hCounter dwFormat lpdwType pValue,
        Forwards svc m m.statics._PdhGetFormattedCounterValue
          [hCounter, dwFormat, lpdwType, pValue]
          (PdhGetFormattedCounterValue svc m hCounter dwFormat lpdwType pValue))
    ∧ (∀ szDataSource szMachineName szObjectName mszCounterList pcchCounterListLength
        mszInstanceList pcchInstanceListLength dwDetailLevel dwFlags,
        Forwards svc m m.statics._PdhEnumObjectItems
          [szDataSource, szMachineName, szObjectName, mszCounterList, pcchCounterListLength,
           mszInstanceList, pcchInstanceListLength, dwDetailLevel, dwFlags]
          (PdhEnumObjectItems svc m szDataSource szMachineName szObjectName mszCounterList
            pcchCounterListLength mszInstanceList pcchInstanceListLength dwDetailLevel dwFlags))
    ∧ (∀ hCounter, Forwards svc m m.statics._PdhRemoveCounter [hCounter]
          (PdhRemoveCounter svc m hCounter))
    ∧ (∀ szMachineName dwNameIndex szNameBuffer pcchNameBufferSize,
        Forwards svc m m.statics._PdhLookupPerfNameByIndex
          [szMachineName, dwNameIndex, szNameBuffer, pcchNameBufferSize]
          (PdhLookupPerfNameByIndex svc m szMachineName dwNameIndex szNameBuffer
            pcchNameBufferSize))
    ∧ (∀ pCounterPathElements szFullPathBuffer pcchBufferSize dwFlags,
        Forwards svc m m.statics._PdhMakeCounterPath
          [pCounterPathElements, szFullPathBuffer, pcchBufferSize, dwFlags]
          (PdhMakeCounterPath svc m pCounterPathElements szFullPathBuffer pcchBufferSize
            dwFlags))
    ∧ (∀ szDataSource szWildCardPath mszExpandedPathList pcchPathListLength dwFlags,
        Forwards svc m m.statics._PdhExpandWildCardPath
          [szDataSource, szWildCardPath, mszExpandedPathList, pcchPathListLength, dwFlags]
          (PdhExpandWildCardPath svc m szDataSource szWildCardPath mszExpandedPathList
            pcchPathListLength dwFlags)) := by
  refine ⟨?_, ?_, ?_, ?_, ?_, ?_, ?_, ?_, ?_, ?_⟩ <;> intros <;> constructor <;> intro h <;>
    simp only [PdhAddCounter, PdhOpenQuery, PdhCloseQuery, PdhCollectQueryData,
      PdhGetFormattedCounterValue, PdhEnumObjectItems, PdhRemoveCounter,
      PdhLookupPerfNameByIndex, PdhMakeCounterPath, PdhExpandWildCardPath, invoke, assert,
      bind, Except.bind, pure, Except.pure] <;>
    first
      | rw [if_pos h]
      | rw [if_neg h]

/-- C10 at `PdhAddCounter`: forwarded on the bound machine, asserted on the initial one. -/
theorem proxies_forward_or_assert_witness :
    (boundMachine.statics._initialized ≠ 0 ∧ boundMachine.statics._PdhAddCounter ≠ 0)
    ∧ PdhAddCounter fullService boundMachine 7 8 9 10
        = Except.ok (7,
            { statics := boundMachine.statics, world := (),
              trace := boundMachine.trace ++ [Event.call 4110 [7, 8, 9, 10]] })
    ∧ ¬((boot ()).statics._initialized ≠ 0 ∧ (boot ()).statics._PdhAddCounter ≠ 0)
    ∧ PdhAddCounter fullService (boot ()) 7 8 9 10 = Except.error assertMessage :=
  ⟨by decide,
    ((proxies_forward_or_assert fullService boundMachine).1 7 8 9 10).1 (by decide),
    by decide,
    ((proxies_forward_or_assert fullService (boot ())).1 7 8 9 10).2 (by decide)⟩

/-! ## C11: the status classifier -/

/-- C11: for every status code `c`, `PdhStatusFail c` is false if and only if `c` is the
success code or the more-data code, and true for every other code; the function has no
argument besides the code (and the two constants), so its result depends on `c` alone. -/
theorem PdhStatusFail_false_iff (k : StatusConstants) (c : Int) :
    (PdhStatusFail k c = false ↔ (c = k.ERROR_SUCCESS ∨ c = k.PDH_MORE_DATA))
    ∧ (PdhStatusFail k c = true ↔ (c ≠ k.ERROR_SUCCESS ∧ c ≠ k.PDH_MORE_DATA)) := by
  unfold PdhStatusFail
  by_cases h1 : c = k.ERROR_SUCCESS <;> by_cases h2 : c = k.PDH_MORE_DATA <;> simp [h1, h2]

/-! ## C12: frame of a `PdhDetach` that returns false -/

/-- C12: whenever `PdhDetach` returns false, the module handle, all ten entry points and
`_initialized` are unchanged: the statics differ only in the reference count, which
`InterlockedExchangeAdd` lowers by one (in `LONG` arithmetic: plain `- 1` above the bottom of
the range). In particular, when the last reference is released and the unload call fails,
the loaded state is retained with a reference count of zero. `PdhAttach` never resets a
non-zero `_initialized` to 0. -/
theorem PdhDetach_false_frame {W : Type} (svc : Service W) (m : Machine W)
    (h : (PdhDetach svc m).1 = false) :
    (PdhDetach svc m).2.statics = { m.statics with
        _pdh_reference_count := wrapLONG (m.statics._pdh_reference_count - 1) }
    ∧ (PdhDetach svc m).2.statics._hModule = m.statics._hModule
    ∧ entryPoints (PdhDetach svc m).2.statics = entryPoints m.statics
    ∧ (PdhDetach svc m).2.statics._initialized = m.statics._initialized
    ∧ (-2147483648 < m.statics._pdh_reference_count
        → m.statics._pdh_reference_count < 2147483648
        → (PdhDetach svc m).2.statics._pdh_reference_count
            = m.statics._pdh_reference_count - 1)
    ∧ (m.statics._pdh_reference_count = 1 → m.statics._initialized ≠ 0
        → m.statics._hModule ≠ 0
        → (svc.FreeLibrary m.world m.statics._hModule).1 = 0
        → (PdhDetach svc m).2.statics = { m.statics with _pdh_reference_count := 0 })
    ∧ (∀ (fuel : Nat) (m0 m1 : Machine W) (r : Bool),
        PdhAttach fuel svc m0 = some (r, m1) → m0.statics._initialized ≠ 0
        → m1.statics._initialized = m0.statics._initialized) := by
  have hs := PdhDetach_false_statics svc m h
  refine ⟨hs, by rw [hs], by rw [hs]; rfl, by rw [hs], ?_, ?_, ?_⟩
  · intro h1 h2
    rw [hs]
    exact wrapLONG_of_range _ (by omega) (by omega)
  · intro h1 _ _ _
    rw [hs, h1]
    rfl
  · exact fun fuel m0 m1 r h0 hi => PdhAttach_initialized_kept fuel svc m0 m1 r h0 hi

/-- C12 on the bound machine, whose last reference is released while unload fails. -/
theorem PdhDetach_false_frame_witness :
    (PdhDetach stuckService boundMachine).1 = false
    ∧ (PdhDetach stuckService boundMachine).2.statics
        = { boundMachine.statics with _pdh_reference_count := 0 }
    ∧ (PdhDetach stuckService boundMachine).2.statics._initialized = 1 :=
  ⟨by decide,
    (PdhDetach_false_frame stuckService boundMachine (by decide)).2.2.2.2.2.1
      (by decide) (by decide) (by decide) (by decide),
    (PdhDetach_false_frame stuckService boundMachine (by decide)).2.2.2.1⟩

/-! ## C13: the status classifier at 0 and at negative codes -/

/-- C13 as stated fails: with the platform values of the constants the status code 0 is
`ERROR_SUCCESS`, and `PdhStatusFail` returns false for it. -/
theorem PdhStatusFail_zero : PdhStatusFail windowsSDK 0 = false := by
  decide

/-- C13, amended: with the platform values of the constants, `PdhStatusFail` classifies the
status code 0 as not a failure (0 is `ERROR_SUCCESS`); it returns true for every negative
status code other than `PDH_MORE_DATA` (-2147481646 as a 32-bit signed `PDH_STATUS`), false
for `PDH_MORE_DATA`, and true for every positive code. -/
theorem PdhStatusFail_platform (c : Int) (hc : c ≠ 0) (hm : c ≠ -2147481646) :
    PdhStatusFail windowsSDK c = true
    ∧ PdhStatusFail windowsSDK 0 = false
    ∧ PdhStatusFail windowsSDK (-2147481646) = false
    ∧ windowsSDK.ERROR_SUCCESS = 0 ∧ windowsSDK.PDH_MORE_DATA = -2147481646 := by
  refine ⟨?_, by decide, by decide, rfl, rfl⟩
  simp [PdhStatusFail, windowsSDK, hc, hm]

/-- The amended C13 at the negative status code -1. -/
theorem PdhStatusFail_platform_witness :
    (-1 : Int) ≠ 0 ∧ (-1 : Int) ≠ -2147481646
    ∧ PdhStatusFail windowsSDK (-1) = true
    ∧ PdhStatusFail windowsSDK 0 = false
    ∧ PdhStatusFail windowsSDK (-2147481646) = false
    ∧ windowsSDK.ERROR_SUCCESS = 0 ∧ windowsSDK.PDH_MORE_DATA = -2147481646 :=
  ⟨by decide, by decide, PdhStatusFail_platform (-1) (by decide) (by decide)⟩

end PdhDll

namespace NativeThread

/-! ## C14: `THREAD_status` -/

/-- C14, evaluated: `THREAD_status` returns -1 on `nullptr`, 0 on a mirror that was started
and whose thread has not run yet, and the status of the procedure once the thread has
finished, as the claim says; but on a mirror just returned by `THREAD_new` and never
started, which has not finished, it returns -1 and not 0. -/
theorem THREAD_status_of_new_mirror (blank : THREAD) (p : Nat → Int) (context : Nat)
    (id : Nat) :
    THREAD_hasFinished (THREAD_new (some blank) p context) = 0
    ∧ THREAD_status (THREAD_new (some blank) p context) = -1
    ∧ THREAD_status none = -1
    ∧ (THREAD_start (some id) (THREAD_new (some blank) p context)).1 = true
    ∧ THREAD_hasFinished (THREAD_start (some id) (THREAD_new (some blank) p context)).2 = 0
    ∧ THREAD_status (THREAD_start (some id) (THREAD_new (some blank) p context)).2 = 0
    ∧ THREAD_hasFinished
        ((THREAD_start (some id) (THREAD_new (some blank) p context)).2.map procedure) = 1
    ∧ THREAD_status
        ((THREAD_start (some id) (THREAD_new (some blank) p context)).2.map procedure)
        = p context := by
  simp [THREAD_new, THREAD_start, THREAD_status, THREAD_hasFinished, procedure]

end NativeThread

namespace PdhDll

/-! ## C16: the spin lock in a single-threaded run -/

/-- C16: in a single-threaded run, `PdhAttach` called with the init lock flag at 0
terminates. One iteration of the acquire loop takes the lock, setting the flag to 1, one
iteration of the release loop frees it, so fuel for a single iteration of each loop is
enough and more fuel gives the same result; the flag is 0 again when `PdhAttach` returns,
on the fast path (which runs neither loop) and on the initializing path (which runs
`initialize` with the flag at 1). -/
theorem PdhAttach_terminates_lock_free {W : Type} (fuel : Nat) (svc : Service W)
    (m : Machine W) (hcs : m.statics._critical_section = 0) :
    acquireLoop 1 m.statics._critical_section = some 1
    ∧ releaseLoop 1 1 = some 0
    ∧ ∃ r m1, PdhAttach 1 svc m = some (r, m1)
        ∧ PdhAttach (fuel + 1) svc m = some (r, m1)
        ∧ m1.statics._critical_section = 0
        ∧ (m.statics._initialized = 1 → PdhAttach 0 svc m = some (r, m1))
        ∧ (m.statics._initialized = 0 →
            (locked m).statics._critical_section = 1
            ∧ m1 = { initialize_ svc (locked m) with
                statics := { (initialize_ svc (locked m)).statics with
                  _critical_section := 0 } }) := by
  refine ⟨by rw [hcs]; exact acquireLoop_free 0, releaseLoop_held 0, ?_⟩
  by_cases h1 : m.statics._initialized = 1
  · refine ⟨_, _, PdhAttach_fast 1 svc m h1, PdhAttach_fast (fuel + 1) svc m h1, hcs,
      fun _ => PdhAttach_fast 0 svc m h1, ?_⟩
    intro h0
    rw [h1] at h0
    exact absurd h0 (by decide)
  · refine ⟨_, _, PdhAttach_free_lock 0 svc m h1 hcs, PdhAttach_free_lock fuel svc m h1 hcs,
      rfl, fun h => absurd h h1, ?_⟩
    intro h0
    refine ⟨rfl, ?_⟩
    simp only [h0, if_true]

/-- C16 at the initial state (initializing path) of a machine with the full library. -/
theorem PdhAttach_terminates_lock_free_witness :
    (boot ()).statics._critical_section = 0
    ∧ acquireLoop 1 (boot ()).statics._critical_section = some 1
    ∧ releaseLoop 1 1 = some 0
    ∧ ∃ r m1, PdhAttach 1 fullService (boot ()) = some (r, m1)
        ∧ PdhAttach (5 + 1) fullService (boot ()) = some (r, m1)
        ∧ m1.statics._critical_section = 0
        ∧ ((boot ()).statics._initialized = 1 → PdhAttach 0 fullService (boot ()) = some (r, m1))
        ∧ ((boot ()).statics._initialized = 0 →
            (locked (boot ())).statics._critical_section = 1
            ∧ m1 = { initialize_ fullService (locked (boot ())) with
                statics := { (initialize_ fullService (locked (boot ()))).statics with
                  _critical_section := 0 } }) :=
  ⟨rfl, PdhAttach_terminates_lock_free 5 fullService (boot ()) rfl⟩

/-! ## C17: the statics between calls -/

/-- C17: in every state reached from the initial zero state by a single-threaded sequence
of `PdhAttach` and `PdhDetach` calls, with any service, `_initialized` is 1 exactly when the
module handle is non-empty, and whenever `_initialized` is 0 all ten entry points are empty
(besides, `_initialized` is 0 or 1 and the lock is free). With fuel for one loop iteration
every sequence does reach a state. -/
theorem reachable_initialized_iff_module {W : Type} (fuel : Nat) (svc : Service W) (w : W)
    (calls : List Call) :
    (∀ (f : Nat) (rets : List Bool) (m : Machine W),
        run f svc calls (boot w) = some (rets, m) →
          (m.statics._initialized = 1 ↔ m.statics._hModule ≠ 0)
          ∧ (m.statics._initialized = 0 → ∀ a ∈ entryPoints m.statics, a = 0)
          ∧ (m.statics._initialized = 0 ∨ m.statics._initialized = 1)
          ∧ m.statics._critical_section = 0)
    ∧ ∃ rets m, run (fuel + 1) svc calls (boot w) = some (rets, m) := by
  constructor
  · intro f rets m h
    have hinv := run_reach_inv f svc calls (boot w) m rets (boot_inv w) h
    rcases hinv with ⟨h1, h2, h3, h4⟩ | ⟨h1, h2, h3⟩
    · refine ⟨?_, fun _ => h4, Or.inl h1, h3⟩
      constructor
      · intro h; rw [h1] at h; exact absurd h (by decide)
      · intro h; exact absurd h2 h
    · refine ⟨⟨fun _ => h2, fun _ => h1⟩, ?_, Or.inr h1, h3⟩
      intro h; rw [h1] at h; exact absurd h (by decide)
  · obtain ⟨rets, m, h, -⟩ := run_inv fuel svc calls (boot w) (boot_inv w) wrapLONG_zero
    exact ⟨rets, m, h⟩

/-- C17 at the state a machine with the full library reaches by attach, attach, detach. -/
theorem reachable_initialized_iff_module_witness :
    run 1 fullService [Call.attach, Call.attach, Call.detach] (boot ())
      = some ([true, true, false], boundMachine)
    ∧ ((boundMachine.statics._initialized = 1 ↔ boundMachine.statics._hModule ≠ 0)
      ∧ (boundMachine.statics._initialized = 0 →
          ∀ a ∈ entryPoints boundMachine.statics, a = 0)) :=
  ⟨rfl,
    ⟨((reachable_initialized_iff_module 0 fullService ()
        [Call.attach, Call.attach, Call.detach]).1 1 _ _ rfl).1,
     ((reachable_initialized_iff_module 0 fullService ()
        [Call.attach, Call.attach, Call.detach]).1 1 _ _ rfl).2.1⟩⟩

end PdhDll
